import Mathlib

/-!
Verification of the voice-link-app call layer.

Shallow embedding of the WebRTC call component (`WebRTCCall`, source file
`src/unnamed/part_007`), the invite helpers (`sendCallInvite`,
`sendCallCancelled`, `getInvitesChannel`) and the `useIncomingCalls` hook.

The embedding follows the TypeScript source statement by statement.  The
browser's `RTCPeerConnection` is modelled by the fragment of the WebRTC
signaling-state machine the code exercises: `setRemoteDescription`,
`setLocalDescription` and `addIceCandidate` either succeed and update the
connection, or fail (return `none`, the rejected promise) leaving it
unchanged — in particular `addIceCandidate` fails while no remote
description has been applied, which is how the browser behaves.
-/

namespace VoiceLink

abbrev UserId := String

inductive CallType
  | voice
  | video
deriving DecidableEq, Repr

inductive TrackKind
  | audio
  | video
deriving DecidableEq, Repr

structure MediaStreamTrack where
  kind : TrackKind
  enabled : Bool
  stopped : Bool
deriving DecidableEq, Repr

inductive SignalingState
  | stable
  | haveLocalOffer
  | haveRemoteOffer
deriving DecidableEq, Repr

/-- The observable state of one `RTCPeerConnection` as the component uses it:
the signaling state, the (successfully applied) descriptions and ICE
candidates in order, whether a remote track has arrived, and whether
`close()` has been called. -/
structure RTCPeerConnection where
  signalingState : SignalingState
  remoteDescriptions : List String
  localDescriptions : List String
  appliedCandidates : List String
  connected : Bool
  closed : Bool
deriving DecidableEq, Repr

/-- The connection `createPeerConnection` builds: fresh, `stable`, nothing
applied. -/
def freshPC : RTCPeerConnection :=
  { signalingState := .stable
    remoteDescriptions := []
    localDescriptions := []
    appliedCandidates := []
    connected := false
    closed := false }

/-- `pc.setRemoteDescription(offer)`: legal in `stable` (initial offer or
renegotiation) and in `have-remote-offer`; rejects in `have-local-offer`
and on a closed connection. -/
def setRemoteOffer (pc : RTCPeerConnection) (sdp : String) : Option RTCPeerConnection :=
  if pc.closed then none
  else
    match pc.signalingState with
    | .stable =>
        some { pc with
                signalingState := .haveRemoteOffer
                remoteDescriptions := pc.remoteDescriptions ++ [sdp] }
    | .haveRemoteOffer =>
        some { pc with
                signalingState := .haveRemoteOffer
                remoteDescriptions := pc.remoteDescriptions ++ [sdp] }
    | .haveLocalOffer => none

/-- `pc.setRemoteDescription(answer)`: legal only in `have-local-offer`;
rejects in `stable` (this is what makes a duplicate answer a silent
failure) and on a closed connection. -/
def setRemoteAnswer (pc : RTCPeerConnection) (sdp : String) : Option RTCPeerConnection :=
  if pc.closed then none
  else
    match pc.signalingState with
    | .haveLocalOffer =>
        some { pc with
                signalingState := .stable
                remoteDescriptions := pc.remoteDescriptions ++ [sdp] }
    | _ => none

/-- `pc.setLocalDescription(offer)`: legal in `stable` and
`have-local-offer`. -/
def setLocalOffer (pc : RTCPeerConnection) (sdp : String) : Option RTCPeerConnection :=
  if pc.closed then none
  else
    match pc.signalingState with
    | .stable =>
        some { pc with
                signalingState := .haveLocalOffer
                localDescriptions := pc.localDescriptions ++ [sdp] }
    | .haveLocalOffer =>
        some { pc with
                signalingState := .haveLocalOffer
                localDescriptions := pc.localDescriptions ++ [sdp] }
    | .haveRemoteOffer => none

/-- `pc.setLocalDescription(answer)`: legal only in `have-remote-offer`. -/
def setLocalAnswer (pc : RTCPeerConnection) (sdp : String) : Option RTCPeerConnection :=
  if pc.closed then none
  else
    match pc.signalingState with
    | .haveRemoteOffer =>
        some { pc with
                signalingState := .stable
                localDescriptions := pc.localDescriptions ++ [sdp] }
    | _ => none

/-- `pc.addIceCandidate(c)`: rejects on a closed connection and while no
remote description has been applied; otherwise records the candidate. -/
def addIceCandidate (pc : RTCPeerConnection) (c : String) : Option RTCPeerConnection :=
  if pc.closed then none
  else if pc.remoteDescriptions.isEmpty then none
  else some { pc with appliedCandidates := pc.appliedCandidates ++ [c] }

/-- `pc.close()`. -/
def closePC (pc : RTCPeerConnection) : RTCPeerConnection :=
  { pc with closed := true }

/-- Broadcast payload for `offer` / `answer` / `ice-candidate` events: the
code always sends `from`, `to`, `chatRoomId` plus the body (the offer or
answer SDP, or the candidate). -/
structure SignalPayload where
  from' : UserId
  to' : UserId
  chatRoomId : String
  body : String
deriving DecidableEq, Repr

/-- The broadcast events of the per-call channel `call-<chatRoomId>`. -/
inductive SignalEvent
  | offer (p : SignalPayload)
  | answer (p : SignalPayload)
  | iceCandidate (p : SignalPayload)
  | callEnded (from' : UserId) (chatRoomId : String)
deriving DecidableEq, Repr

/-- `peerConnectionsRef.current.get`. -/
def findPC (m : List (UserId × RTCPeerConnection)) (u : UserId) :
    Option RTCPeerConnection :=
  match m with
  | [] => none
  | (k, v) :: rest => if k = u then some v else findPC rest u

/-- `peerConnectionsRef.current.set`. -/
def setPC (m : List (UserId × RTCPeerConnection)) (u : UserId)
    (pc : RTCPeerConnection) : List (UserId × RTCPeerConnection) :=
  match m with
  | [] => [(u, pc)]
  | (k, v) :: rest => if k = u then (u, pc) :: rest else (k, v) :: setPC rest u pc

/-- The state of one mounted `WebRTCCall` component. `destroyed` collects
the connections that `cleanup` closed and removed from the map; `outbox`
collects the broadcasts the component sent. -/
structure CallComponentState where
  userId : UserId
  chatRoomId : String
  participants : List UserId
  callType : CallType
  localStream : Option (List MediaStreamTrack)
  isMuted : Bool
  isVideoOff : Bool
  isConnected : Bool
  remoteStreams : List UserId
  peerConnections : List (UserId × RTCPeerConnection)
  destroyed : List RTCPeerConnection
  outbox : List SignalEvent
  channelSubscribed : Bool
deriving DecidableEq, Repr

/-- The component state right after mounting, before `initializeCall` and
before any broadcast is delivered. -/
def mkCallState (userId chatRoomId : String) (participants : List UserId)
    (callType : CallType) : CallComponentState :=
  { userId := userId
    chatRoomId := chatRoomId
    participants := participants
    callType := callType
    localStream := none
    isMuted := false
    isVideoOff := decide (callType = CallType.voice)
    isConnected := false
    remoteStreams := []
    peerConnections := []
    destroyed := []
    outbox := []
    channelSubscribed := true }

/-- The SDP `createAnswer` produces in reply to a received offer (the model
makes it a deterministic function of the offer). -/
def answerSdpFor (offerSdp : String) : String :=
  "answer-to-" ++ offerSdp

/-- The SDP `createOffer` produces for the local user (deterministic in the
model). -/
def offerSdpFrom (selfId : UserId) : String :=
  "offer-from-" ++ selfId

/-- `handleOffer(payload)`: look the sender up in the map (return if
absent), apply the remote offer, create and apply the local answer, and
broadcast the answer back to the sender.  A rejected `await` aborts the
rest of the handler and leaves the partial update in place. -/
def handleOffer (s : CallComponentState) (p : SignalPayload) : CallComponentState :=
  match findPC s.peerConnections p.from' with
  | none => s
  | some pc =>
    match setRemoteOffer pc p.body with
    | none => s
    | some pc1 =>
      match setLocalAnswer pc1 (answerSdpFor p.body) with
      | none => { s with peerConnections := setPC s.peerConnections p.from' pc1 }
      | some pc2 =>
        { s with
            peerConnections := setPC s.peerConnections p.from' pc2
            outbox := s.outbox ++
              [SignalEvent.answer
                { from' := s.userId
                  to' := p.from'
                  chatRoomId := s.chatRoomId
                  body := answerSdpFor p.body }] }

/-- `handleAnswer(payload)`: look the sender up (return if absent) and
apply the remote answer; a rejected `setRemoteDescription` leaves the
state unchanged. -/
def handleAnswer (s : CallComponentState) (p : SignalPayload) : CallComponentState :=
  match findPC s.peerConnections p.from' with
  | none => s
  | some pc =>
    match setRemoteAnswer pc p.body with
    | none => s
    | some pc1 => { s with peerConnections := setPC s.peerConnections p.from' pc1 }

/-- `handleIceCandidate(payload)`: look the sender up (return if absent)
and call `addIceCandidate` immediately; there is no buffering, so a
rejected add loses the candidate. -/
def handleIceCandidate (s : CallComponentState) (p : SignalPayload) : CallComponentState :=
  match findPC s.peerConnections p.from' with
  | none => s
  | some pc =>
    match addIceCandidate pc p.body with
    | none => s
    | some pc1 => { s with peerConnections := setPC s.peerConnections p.from' pc1 }

/-- `participants.forEach(...)` in `initializeCall`: create one fresh
connection per participant other than the local user, in roster order. -/
def initPCs (selfId : UserId) : List UserId → List (UserId × RTCPeerConnection) →
    List (UserId × RTCPeerConnection)
  | [], m => m
  | u :: rest, m =>
      initPCs selfId rest (if u = selfId then m else setPC m u freshPC)

/-- The media stream `getUserMedia` returns: audio always, video only for
a video call; tracks start enabled. -/
def mkTracks (callType : CallType) : List MediaStreamTrack :=
  match callType with
  | .voice => [{ kind := .audio, enabled := true, stopped := false }]
  | .video =>
      [{ kind := .audio, enabled := true, stopped := false },
       { kind := .video, enabled := true, stopped := false }]

/-- The success path of `initializeCall`: store the stream, create the
peer connections, set `isConnected`. -/
def runLocalInit (s : CallComponentState) : CallComponentState :=
  { s with
      localStream := some (mkTracks s.callType)
      peerConnections := initPCs s.userId s.participants s.peerConnections
      isConnected := true }

/-- The `for...of` loop of `startCall`: offer to each connection in map
order; a rejected `await` aborts the loop, leaving the remaining entries
untouched and their offers unsent. -/
def startCallLoop (selfId chatRoomId : String) :
    List (UserId × RTCPeerConnection) →
    List (UserId × RTCPeerConnection) × List SignalEvent
  | [] => ([], [])
  | (u, pc) :: rest =>
    match setLocalOffer pc (offerSdpFrom selfId) with
    | none => ((u, pc) :: rest, [])
    | some pc1 =>
      let (m, msgs) := startCallLoop selfId chatRoomId rest
      ((u, pc1) :: m,
       SignalEvent.offer
         { from' := selfId
           to' := u
           chatRoomId := chatRoomId
           body := offerSdpFrom selfId } :: msgs)

/-- `startCall`. -/
def startCall (s : CallComponentState) : CallComponentState :=
  let (m, msgs) := startCallLoop s.userId s.chatRoomId s.peerConnections
  { s with peerConnections := m, outbox := s.outbox ++ msgs }

/-- The `ontrack` handler of the connection for `u`: record the remote
stream. -/
def onTrack (s : CallComponentState) (u : UserId) : CallComponentState :=
  match findPC s.peerConnections u with
  | none => s
  | some pc =>
    { s with
        peerConnections := setPC s.peerConnections u { pc with connected := true }
        remoteStreams :=
          if s.remoteStreams.contains u then s.remoteStreams
          else s.remoteStreams ++ [u] }

/-- `stream.getAudioTracks()[0]` — the first audio track, if any. -/
def firstAudioTrack (tracks : List MediaStreamTrack) : Option MediaStreamTrack :=
  tracks.find? (fun t => decide (t.kind = TrackKind.audio))

/-- Flip the `enabled` flag of the first audio track in place. -/
def toggleFirstAudio : List MediaStreamTrack → List MediaStreamTrack
  | [] => []
  | t :: rest =>
      if t.kind = TrackKind.audio then { t with enabled := !t.enabled } :: rest
      else t :: toggleFirstAudio rest

/-- `toggleMute`: a no-op without a local stream or without an audio track;
otherwise flip the track's `enabled` flag and set `isMuted` to the
negation of the new value (i.e. to the old one). -/
def toggleMute (s : CallComponentState) : CallComponentState :=
  match s.localStream with
  | none => s
  | some tracks =>
    match firstAudioTrack tracks with
    | none => s
    | some t =>
      { s with
          localStream := some (toggleFirstAudio tracks)
          isMuted := t.enabled }

/-- Flip the `enabled` flag of the first video track in place. -/
def toggleFirstVideo : List MediaStreamTrack → List MediaStreamTrack
  | [] => []
  | t :: rest =>
      if t.kind = TrackKind.video then { t with enabled := !t.enabled } :: rest
      else t :: toggleFirstVideo rest

/-- The first video track, if any. -/
def firstVideoTrack (tracks : List MediaStreamTrack) : Option MediaStreamTrack :=
  tracks.find? (fun t => decide (t.kind = TrackKind.video))

/-- `toggleVideo`, symmetric to `toggleMute`. -/
def toggleVideo (s : CallComponentState) : CallComponentState :=
  match s.localStream with
  | none => s
  | some tracks =>
    match firstVideoTrack tracks with
    | none => s
    | some t =>
      { s with
          localStream := some (toggleFirstVideo tracks)
          isVideoOff := t.enabled }

/-- `cleanup`: stop every local track, close every connection, clear the
map, unsubscribe the channel, drop the local and remote streams. -/
def cleanup (s : CallComponentState) : CallComponentState :=
  { s with
      localStream := none
      remoteStreams := []
      peerConnections := []
      destroyed := s.destroyed ++ s.peerConnections.map (fun kv => closePC kv.2)
      channelSubscribed := false }

/-- `endCall`: broadcast `call-ended` (fire-and-forget — the promise is not
awaited, so a send failure cannot interrupt the teardown), then `cleanup`.
`sendOk` says whether the broadcast was delivered. -/
def endCallWith (s : CallComponentState) (sendOk : Bool) : CallComponentState :=
  let s1 :=
    { s with
        outbox := s.outbox ++
          (if sendOk then [SignalEvent.callEnded s.userId s.chatRoomId] else []) }
  cleanup s1

/-- `endCall` with the broadcast delivered. -/
def endCall (s : CallComponentState) : CallComponentState :=
  endCallWith s true

/-- One observable side effect of the teardown path. -/
inductive TeardownStep
  | notify
  | stopTrack (i : Nat)
  | closePeer (u : UserId)
  | unsubscribeChannel
deriving DecidableEq, Repr

/-- The side effects of `endCall` in program order: the `call-ended`
broadcast, then `cleanup` — which stops the local tracks first, then
closes the peer connections, then unsubscribes the channel. -/
def endCallTrace (s : CallComponentState) : List TeardownStep :=
  TeardownStep.notify ::
    ((List.range (match s.localStream with | none => 0 | some tr => tr.length)).map
        TeardownStep.stopTrack ++
      s.peerConnections.map (fun kv => TeardownStep.closePeer kv.1) ++
      [TeardownStep.unsubscribeChannel])

/-- Is this step a `stopTrack`? -/
def isStopStep : TeardownStep → Bool
  | .stopTrack _ => true
  | _ => false

/-- Is this step a `closePeer`? -/
def isCloseStep : TeardownStep → Bool
  | .closePeer _ => true
  | _ => false

/-- `true` iff no `closePeer` step occurs after a `stopTrack` step — the
order the specification claims (connections closed before tracks are
stopped) requires this. -/
def noCloseAfterStop : List TeardownStep → Bool
  | [] => true
  | t :: rest =>
      (!(isStopStep t) || !(rest.any isCloseStep)) && noCloseAfterStop rest

/-- The events a mounted `WebRTCCall` component processes. -/
inductive CallEvent
  | signal (e : SignalEvent)
  | localInit
  | startCallFx
  | trackArrived (u : UserId)
  | muteClick
  | videoClick
  | endCallClick
deriving DecidableEq, Repr

/-- One step of the component.  Broadcast payloads are dropped unless
addressed to the local user (`payload.to === user?.id`); `call-ended` is
instead filtered by `chatRoomId`, and a match runs `onEndCall`, which
unmounts the component and so runs the effect cleanup. -/
def step (s : CallComponentState) (e : CallEvent) : CallComponentState :=
  match e with
  | .signal (.offer p) => if p.to' = s.userId then handleOffer s p else s
  | .signal (.answer p) => if p.to' = s.userId then handleAnswer s p else s
  | .signal (.iceCandidate p) => if p.to' = s.userId then handleIceCandidate s p else s
  | .signal (.callEnded _ room) => if room = s.chatRoomId then cleanup s else s
  | .localInit => runLocalInit s
  | .startCallFx => startCall s
  | .trackArrived u => onTrack s u
  | .muteClick => toggleMute s
  | .videoClick => toggleVideo s
  | .endCallClick => endCall s

/-! ### The `useIncomingCalls` hook -/

/-- The payload of an `incoming-call` broadcast (an invite). -/
structure InvitePayload where
  chatRoomId : String
  callType : CallType
  from' : UserId
  to' : UserId
  participants : List UserId
deriving DecidableEq, Repr

/-- A pending incoming call as the hook stores it. -/
structure IncomingCall where
  chatRoomId : String
  callType : CallType
  from' : UserId
  to' : UserId
  participants : List UserId
deriving DecidableEq, Repr

/-- The state of the `useIncomingCalls` hook.  The subscription effect has
dependency list `[user]`, so its broadcast handlers capture the
`incomingCall` value of the render in which the effect ran; that snapshot
(`capturedIncomingCall`) is what the `call-cancelled` guard reads, and it
is not refreshed when `incomingCall` later changes. -/
structure IncomingCallsState where
  selfId : UserId
  incomingCall : Option IncomingCall
  capturedIncomingCall : Option IncomingCall
deriving DecidableEq, Repr

/-- Hook state right after the subscription effect ran: no pending call,
and the handlers captured that `none`. -/
def mkIncomingCallsState (selfId : UserId) : IncomingCallsState :=
  { selfId := selfId, incomingCall := none, capturedIncomingCall := none }

/-- The broadcast events of the process-wide `call-invites` channel. -/
inductive InviteEvent
  | incomingCall (p : InvitePayload)
  | callCancelled (chatRoomId : String) (from' : UserId) (to' : UserId)
deriving DecidableEq, Repr

/-- One step of the hook.  `incoming-call` guarded by `payload.to ===
user.id` stores the pending call; `call-cancelled` is guarded by
`payload.to === user.id && incomingCall?.chatRoomId === payload.chatRoomId`
where `incomingCall` is the captured snapshot. -/
def inviteStep (st : IncomingCallsState) (e : InviteEvent) : IncomingCallsState :=
  match e with
  | .incomingCall p =>
      if p.to' = st.selfId then
        { st with
            incomingCall := some
              { chatRoomId := p.chatRoomId
                callType := p.callType
                from' := p.from'
                to' := p.to'
                participants := p.participants } }
      else st
  | .callCancelled room _ t =>
      if decide (t = st.selfId) &&
          (match st.capturedIncomingCall with
           | some c => decide (c.chatRoomId = room)
           | none => false) then
        { st with incomingCall := none }
      else st

/-- The active call `acceptIncoming` would start from the pending incoming
call, if one is pending. -/
def acceptIncoming (st : IncomingCallsState) :
    Option (String × CallType × List UserId) :=
  match st.incomingCall with
  | none => none
  | some c => some (c.chatRoomId, c.callType, c.participants)

/-! ### The invite helpers of `src/src/pages/Index.tsx` -/

/-- The `for...of` send loop shared by `sendCallInvite` and
`sendCallCancelled`, run under a single `try`: returns the recipients a
publish was attempted for (in order) and the error that escaped the loop,
if any.  `fails` says which per-recipient publishes reject. -/
def broadcastLoop (fails : UserId → Bool) : List UserId → List UserId × Option String
  | [] => ([], none)
  | r :: rest =>
      if fails r then ([r], some "channel send failed")
      else
        let (sent, err) := broadcastLoop fails rest
        (r :: sent, err)

/-- `sendCallInvite`: run the loop, catch and log any error (it is not
re-thrown).  Returns the attempted recipients and whether an error was
logged. -/
def sendCallInvite (recipients : List UserId) (fails : UserId → Bool) :
    List UserId × Bool :=
  let (attempted, err) := broadcastLoop fails recipients
  (attempted, err.isSome)

/-- `sendCallCancelled`: identical loop and `try`/`catch` shape. -/
def sendCallCancelled (recipients : List UserId) (fails : UserId → Bool) :
    List UserId × Bool :=
  let (attempted, err) := broadcastLoop fails recipients
  (attempted, err.isSome)

/-- Module-level state of the invites channel (`invitesChannel`,
`subscribed`), instrumented with how many channel creations and
subscriptions were performed and which channel handles the calls
returned. -/
structure InvitesChannelState where
  invitesChannel : Option Nat
  subscribed : Bool
  createCount : Nat
  subscribeCount : Nat
  handlesReturned : List Nat
deriving DecidableEq, Repr

/-- The module state at process start. -/
def initialInvitesState : InvitesChannelState :=
  { invitesChannel := none
    subscribed := false
    createCount := 0
    subscribeCount := 0
    handlesReturned := [] }

/-- `getInvitesChannel`: create the channel if absent, subscribe if not
yet subscribed, return the handle. -/
def getInvitesChannel (st : InvitesChannelState) : InvitesChannelState × Nat :=
  let created :=
    match st.invitesChannel with
    | some c => (st, c)
    | none =>
        ({ st with
            invitesChannel := some st.createCount
            createCount := st.createCount + 1 },
         st.createCount)
  let st1 := created.1
  let ch := created.2
  let st2 :=
    if st1.subscribed then st1
    else { st1 with subscribed := true, subscribeCount := st1.subscribeCount + 1 }
  ({ st2 with handlesReturned := st2.handlesReturned ++ [ch] }, ch)

/-- One public call into the invites module. -/
inductive InviteApiCall
  | invite (recipients : List UserId)
  | cancel (recipients : List UserId)
deriving DecidableEq, Repr

/-- Run a sequence of `sendCallInvite` / `sendCallCancelled` calls; each
one obtains the channel through `getInvitesChannel` (the sends themselves
do not touch the module state). -/
def runInviteApi (st : InvitesChannelState) : List InviteApiCall → InvitesChannelState
  | [] => st
  | _ :: rest => runInviteApi (getInvitesChannel st).1 rest

/-! ### Map lemmas -/

theorem findPC_setPC (m : List (UserId × RTCPeerConnection)) (u v : UserId)
    (w : RTCPeerConnection) :
    findPC (setPC m u w) v = if v = u then some w else findPC m v := by
  induction m with
  | nil =>
      by_cases hvu : v = u
      · subst hvu
        simp [setPC, findPC]
      · have huv : ¬ u = v := fun h => hvu h.symm
        simp [setPC, findPC, huv, hvu]
  | cons kv rest ih =>
      obtain ⟨k, x⟩ := kv
      by_cases hku : k = u
      · subst hku
        by_cases hvk : v = k
        · subst hvk
          simp [setPC, findPC]
        · have hkv : ¬ k = v := fun h => hvk h.symm
          simp [setPC, findPC, hkv, hvk]
      · by_cases hkv : k = v
        · subst hkv
          have hvu : ¬ k = u := hku
          simp [setPC, findPC, hku, hvu]
        · by_cases hvu : v = u
          · subst hvu
            simp [setPC, findPC, hku, hkv, ih]
          · simp [setPC, findPC, hku, hkv, hvu, ih]

/-! ### The abstract connection state machine

The specification's machine is
`New → LocalOfferSent | RemoteOfferReceived → Negotiating → Connected → Closed`.
`level` ranks a connection in that machine from its monotone observables:
`close()` is never undone, a remote track never un-arrives, and applied
descriptions are never removed. -/

/-- The rank of a connection in the specification's state machine. -/
def level (pc : RTCPeerConnection) : Nat :=
  if pc.closed then 4
  else if pc.connected then 3
  else if !pc.remoteDescriptions.isEmpty && !pc.localDescriptions.isEmpty then 2
  else if !pc.remoteDescriptions.isEmpty || !pc.localDescriptions.isEmpty then 1
  else 0

theorem level_le_four (pc : RTCPeerConnection) : level pc ≤ 4 := by
  unfold level
  split_ifs <;> omega

theorem level_mono (pc pc' : RTCPeerConnection)
    (hc : pc.closed = true → pc'.closed = true)
    (hn : pc.connected = true → pc'.connected = true)
    (hr : pc.remoteDescriptions.isEmpty = false →
      pc'.remoteDescriptions.isEmpty = false)
    (hl : pc.localDescriptions.isEmpty = false →
      pc'.localDescriptions.isEmpty = false) :
    level pc ≤ level pc' := by
  unfold level
  split_ifs
  all_goals first
  | omega
  | simp_all

theorem append_singleton_isEmpty (l : List String) (x : String) :
    (l ++ [x]).isEmpty = false := by
  cases l <;> rfl

theorem level_le_of_setRemoteOffer (pc pc' : RTCPeerConnection) (sdp : String)
    (h : setRemoteOffer pc sdp = some pc') : level pc ≤ level pc' := by
  cases hc : pc.closed
  · cases hs : pc.signalingState
    · simp [setRemoteOffer, hc, hs] at h
      subst h
      refine level_mono _ _ (by simp_all) (by simp) ?_ (by simp)
      intro _
      exact append_singleton_isEmpty _ _
    · simp [setRemoteOffer, hc, hs] at h
    · simp [setRemoteOffer, hc, hs] at h
      subst h
      refine level_mono _ _ (by simp_all) (by simp) ?_ (by simp)
      intro _
      exact append_singleton_isEmpty _ _
  · simp [setRemoteOffer, hc] at h

theorem level_le_of_setRemoteAnswer (pc pc' : RTCPeerConnection) (sdp : String)
    (h : setRemoteAnswer pc sdp = some pc') : level pc ≤ level pc' := by
  cases hc : pc.closed
  · cases hs : pc.signalingState
    · simp [setRemoteAnswer, hc, hs] at h
    · simp [setRemoteAnswer, hc, hs] at h
      subst h
      refine level_mono _ _ (by simp_all) (by simp) ?_ (by simp)
      intro _
      exact append_singleton_isEmpty _ _
    · simp [setRemoteAnswer, hc, hs] at h
  · simp [setRemoteAnswer, hc] at h

theorem level_le_of_setLocalOffer (pc pc' : RTCPeerConnection) (sdp : String)
    (h : setLocalOffer pc sdp = some pc') : level pc ≤ level pc' := by
  cases hc : pc.closed
  · cases hs : pc.signalingState
    · simp [setLocalOffer, hc, hs] at h
      subst h
      refine level_mono _ _ (by simp_all) (by simp) (by simp) ?_
      intro _
      exact append_singleton_isEmpty _ _
    · simp [setLocalOffer, hc, hs] at h
      subst h
      refine level_mono _ _ (by simp_all) (by simp) (by simp) ?_
      intro _
      exact append_singleton_isEmpty _ _
    · simp [setLocalOffer, hc, hs] at h
  · simp [setLocalOffer, hc] at h

theorem level_le_of_setLocalAnswer (pc pc' : RTCPeerConnection) (sdp : String)
    (h : setLocalAnswer pc sdp = some pc') : level pc ≤ level pc' := by
  cases hc : pc.closed
  · cases hs : pc.signalingState
    · simp [setLocalAnswer, hc, hs] at h
    · simp [setLocalAnswer, hc, hs] at h
    · simp [setLocalAnswer, hc, hs] at h
      subst h
      refine level_mono _ _ (by simp_all) (by simp) (by simp) ?_
      intro _
      exact append_singleton_isEmpty _ _
  · simp [setLocalAnswer, hc] at h

theorem level_le_of_addIceCandidate (pc pc' : RTCPeerConnection) (c : String)
    (h : addIceCandidate pc c = some pc') : level pc ≤ level pc' := by
  cases hc : pc.closed
  · cases he : pc.remoteDescriptions.isEmpty
    · simp [addIceCandidate, hc, he] at h
      subst h
      exact level_mono _ _ (by simp_all) (by simp) (by simp) (by simp)
    · simp [addIceCandidate, hc, he] at h
  · simp [addIceCandidate, hc] at h

theorem level_le_of_connected (pc : RTCPeerConnection) :
    level pc ≤ level { pc with connected := true } := by
  exact level_mono _ _ (by simp_all) (by simp) (by simp) (by simp)

/-- Updating one present key with a connection of at least its level keeps
every lookup's level from decreasing. -/
theorem level_mono_of_update (m : List (UserId × RTCPeerConnection))
    (u0 : UserId) (pc0 pc1 : RTCPeerConnection)
    (hfind : findPC m u0 = some pc0) (hle : level pc0 ≤ level pc1) :
    ∀ u pcA pcA', findPC m u = some pcA →
      findPC (setPC m u0 pc1) u = some pcA' → level pcA ≤ level pcA' := by
  intro u pcA pcA' hA hA'
  rw [findPC_setPC] at hA'
  by_cases hu : u = u0
  · subst hu
    rw [if_pos rfl] at hA'
    injection hA' with hA'
    subst hA'
    rw [hA] at hfind
    injection hfind with hfind
    subst hfind
    exact hle
  · rw [if_neg hu] at hA'
    rw [hA] at hA'
    injection hA' with hA'
    subst hA'
    exact le_refl _

theorem handleOffer_level_mono (s : CallComponentState) (p : SignalPayload) :
    ∀ u pcA pcA', findPC s.peerConnections u = some pcA →
      findPC (handleOffer s p).peerConnections u = some pcA' →
      level pcA ≤ level pcA' := by
  intro u pcA pcA' hA hA'
  cases hf : findPC s.peerConnections p.from' with
  | none =>
      have he : handleOffer s p = s := by simp [handleOffer, hf]
      rw [he, hA] at hA'
      injection hA' with hA'
      subst hA'
      exact le_refl _
  | some pc =>
      cases hro : setRemoteOffer pc p.body with
      | none =>
          have he : handleOffer s p = s := by simp [handleOffer, hf, hro]
          rw [he, hA] at hA'
          injection hA' with hA'
          subst hA'
          exact le_refl _
      | some pc1 =>
          cases hla : setLocalAnswer pc1 (answerSdpFor p.body) with
          | none =>
              have he : (handleOffer s p).peerConnections =
                  setPC s.peerConnections p.from' pc1 := by
                simp [handleOffer, hf, hro, hla]
              rw [he] at hA'
              exact level_mono_of_update _ _ _ _ hf
                (level_le_of_setRemoteOffer _ _ _ hro) u pcA pcA' hA hA'
          | some pc2 =>
              have he : (handleOffer s p).peerConnections =
                  setPC s.peerConnections p.from' pc2 := by
                simp [handleOffer, hf, hro, hla]
              rw [he] at hA'
              exact level_mono_of_update _ _ _ _ hf
                (le_trans (level_le_of_setRemoteOffer _ _ _ hro)
                  (level_le_of_setLocalAnswer _ _ _ hla)) u pcA pcA' hA hA'

theorem handleAnswer_level_mono (s : CallComponentState) (p : SignalPayload) :
    ∀ u pcA pcA', findPC s.peerConnections u = some pcA →
      findPC (handleAnswer s p).peerConnections u = some pcA' →
      level pcA ≤ level pcA' := by
  intro u pcA pcA' hA hA'
  cases hf : findPC s.peerConnections p.from' with
  | none =>
      have he : handleAnswer s p = s := by simp [handleAnswer, hf]
      rw [he, hA] at hA'
      injection hA' with hA'
      subst hA'
      exact le_refl _
  | some pc =>
      cases hra : setRemoteAnswer pc p.body with
      | none =>
          have he : handleAnswer s p = s := by simp [handleAnswer, hf, hra]
          rw [he, hA] at hA'
          injection hA' with hA'
          subst hA'
          exact le_refl _
      | some pc1 =>
          have he : (handleAnswer s p).peerConnections =
              setPC s.peerConnections p.from' pc1 := by
            simp [handleAnswer, hf, hra]
          rw [he] at hA'
          exact level_mono_of_update _ _ _ _ hf
            (level_le_of_setRemoteAnswer _ _ _ hra) u pcA pcA' hA hA'

theorem handleIceCandidate_level_mono (s : CallComponentState) (p : SignalPayload) :
    ∀ u pcA pcA', findPC s.peerConnections u = some pcA →
      findPC (handleIceCandidate s p).peerConnections u = some pcA' →
      level pcA ≤ level pcA' := by
  intro u pcA pcA' hA hA'
  cases hf : findPC s.peerConnections p.from' with
  | none =>
      have he : handleIceCandidate s p = s := by simp [handleIceCandidate, hf]
      rw [he, hA] at hA'
      injection hA' with hA'
      subst hA'
      exact le_refl _
  | some pc =>
      cases hai : addIceCandidate pc p.body with
      | none =>
          have he : handleIceCandidate s p = s := by
            simp [handleIceCandidate, hf, hai]
          rw [he, hA] at hA'
          injection hA' with hA'
          subst hA'
          exact le_refl _
      | some pc1 =>
          have he : (handleIceCandidate s p).peerConnections =
              setPC s.peerConnections p.from' pc1 := by
            simp [handleIceCandidate, hf, hai]
          rw [he] at hA'
          exact level_mono_of_update _ _ _ _ hf
            (level_le_of_addIceCandidate _ _ _ hai) u pcA pcA' hA hA'

theorem onTrack_level_mono (s : CallComponentState) (v : UserId) :
    ∀ u pcA pcA', findPC s.peerConnections u = some pcA →
      findPC (onTrack s v).peerConnections u = some pcA' →
      level pcA ≤ level pcA' := by
  intro u pcA pcA' hA hA'
  cases hf : findPC s.peerConnections v with
  | none =>
      have he : onTrack s v = s := by simp [onTrack, hf]
      rw [he, hA] at hA'
      injection hA' with hA'
      subst hA'
      exact le_refl _
  | some pc =>
      have he : (onTrack s v).peerConnections =
          setPC s.peerConnections v { pc with connected := true } := by
        simp [onTrack, hf]
      rw [he] at hA'
      exact level_mono_of_update _ _ _ _ hf
        (level_le_of_connected pc) u pcA pcA' hA hA'

theorem startCallLoop_level_mono (selfId room : String) :
    ∀ (m : List (UserId × RTCPeerConnection)) u pcA pcA',
      findPC m u = some pcA →
      findPC (startCallLoop selfId room m).1 u = some pcA' →
      level pcA ≤ level pcA' := by
  intro m
  induction m with
  | nil =>
      intro u pcA pcA' hA _
      simp [findPC] at hA
  | cons kv rest ih =>
      obtain ⟨k, v⟩ := kv
      intro u pcA pcA' hA hA'
      cases hsl : setLocalOffer v (offerSdpFrom selfId) with
      | none =>
          have he : (startCallLoop selfId room ((k, v) :: rest)).1 =
              (k, v) :: rest := by
            simp [startCallLoop, hsl]
          rw [he, hA] at hA'
          injection hA' with hA'
          subst hA'
          exact le_refl _
      | some v1 =>
          have he : (startCallLoop selfId room ((k, v) :: rest)).1 =
              (k, v1) :: (startCallLoop selfId room rest).1 := by
            simp [startCallLoop, hsl]
          rw [he] at hA'
          by_cases hk : k = u
          · subst hk
            rw [findPC] at hA hA'
            rw [if_pos rfl] at hA hA'
            injection hA with hA
            injection hA' with hA'
            subst hA
            subst hA'
            exact level_le_of_setLocalOffer _ _ _ hsl
          · rw [findPC, if_neg hk] at hA hA'
            exact ih u pcA pcA' hA hA'

theorem handleOffer_destroyed (s : CallComponentState) (p : SignalPayload) :
    (handleOffer s p).destroyed = s.destroyed := by
  cases hf : findPC s.peerConnections p.from' with
  | none => simp [handleOffer, hf]
  | some pc =>
      cases hro : setRemoteOffer pc p.body with
      | none => simp [handleOffer, hf, hro]
      | some pc1 =>
          cases hla : setLocalAnswer pc1 (answerSdpFor p.body) with
          | none => simp [handleOffer, hf, hro, hla]
          | some pc2 => simp [handleOffer, hf, hro, hla]

theorem handleAnswer_destroyed (s : CallComponentState) (p : SignalPayload) :
    (handleAnswer s p).destroyed = s.destroyed := by
  cases hf : findPC s.peerConnections p.from' with
  | none => simp [handleAnswer, hf]
  | some pc =>
      cases hra : setRemoteAnswer pc p.body with
      | none => simp [handleAnswer, hf, hra]
      | some pc1 => simp [handleAnswer, hf, hra]

theorem handleIceCandidate_destroyed (s : CallComponentState) (p : SignalPayload) :
    (handleIceCandidate s p).destroyed = s.destroyed := by
  cases hf : findPC s.peerConnections p.from' with
  | none => simp [handleIceCandidate, hf]
  | some pc =>
      cases hai : addIceCandidate pc p.body with
      | none => simp [handleIceCandidate, hf, hai]
      | some pc1 => simp [handleIceCandidate, hf, hai]

theorem onTrack_destroyed (s : CallComponentState) (u : UserId) :
    (onTrack s u).destroyed = s.destroyed := by
  cases hf : findPC s.peerConnections u with
  | none => simp [onTrack, hf]
  | some pc => simp [onTrack, hf]

theorem toggleMute_frame (s : CallComponentState) :
    (toggleMute s).peerConnections = s.peerConnections ∧
      (toggleMute s).destroyed = s.destroyed := by
  cases hls : s.localStream with
  | none => simp [toggleMute, hls]
  | some tracks =>
      cases hfa : firstAudioTrack tracks with
      | none => simp [toggleMute, hls, hfa]
      | some t => simp [toggleMute, hls, hfa]

theorem toggleVideo_frame (s : CallComponentState) :
    (toggleVideo s).peerConnections = s.peerConnections ∧
      (toggleVideo s).destroyed = s.destroyed := by
  cases hls : s.localStream with
  | none => simp [toggleVideo, hls]
  | some tracks =>
      cases hfv : firstVideoTrack tracks with
      | none => simp [toggleVideo, hls, hfv]
      | some t => simp [toggleVideo, hls, hfv]

/-! ### Connections in the live map are never closed -/

theorem setRemoteOffer_unclosed (pc pc' : RTCPeerConnection) (sdp : String)
    (h : setRemoteOffer pc sdp = some pc') : pc'.closed = false := by
  cases hc : pc.closed
  · cases hs : pc.signalingState <;> simp [setRemoteOffer, hc, hs] at h <;>
      subst h <;> simpa using hc
  · simp [setRemoteOffer, hc] at h

theorem setRemoteAnswer_unclosed (pc pc' : RTCPeerConnection) (sdp : String)
    (h : setRemoteAnswer pc sdp = some pc') : pc'.closed = false := by
  cases hc : pc.closed
  · cases hs : pc.signalingState <;> simp [setRemoteAnswer, hc, hs] at h <;>
      subst h <;> simpa using hc
  · simp [setRemoteAnswer, hc] at h

theorem setLocalOffer_unclosed (pc pc' : RTCPeerConnection) (sdp : String)
    (h : setLocalOffer pc sdp = some pc') : pc'.closed = false := by
  cases hc : pc.closed
  · cases hs : pc.signalingState <;> simp [setLocalOffer, hc, hs] at h <;>
      subst h <;> simpa using hc
  · simp [setLocalOffer, hc] at h

theorem setLocalAnswer_unclosed (pc pc' : RTCPeerConnection) (sdp : String)
    (h : setLocalAnswer pc sdp = some pc') : pc'.closed = false := by
  cases hc : pc.closed
  · cases hs : pc.signalingState <;> simp [setLocalAnswer, hc, hs] at h <;>
      subst h <;> simpa using hc
  · simp [setLocalAnswer, hc] at h

theorem addIceCandidate_unclosed (pc pc' : RTCPeerConnection) (c : String)
    (h : addIceCandidate pc c = some pc') : pc'.closed = false := by
  cases hc : pc.closed
  · cases he : pc.remoteDescriptions.isEmpty <;> simp [addIceCandidate, hc, he] at h
    subst h
    simpa using hc
  · simp [addIceCandidate, hc] at h

/-- The live map holds no closed connection. -/
def mapUnclosed (m : List (UserId × RTCPeerConnection)) : Prop :=
  ∀ u pc, findPC m u = some pc → pc.closed = false

theorem mapUnclosed_setPC (m : List (UserId × RTCPeerConnection)) (u0 : UserId)
    (pc1 : RTCPeerConnection) (hm : mapUnclosed m) (h1 : pc1.closed = false) :
    mapUnclosed (setPC m u0 pc1) := by
  intro u pc hfind
  rw [findPC_setPC] at hfind
  by_cases hu : u = u0
  · rw [if_pos hu] at hfind
    injection hfind with hfind
    subst hfind
    exact h1
  · rw [if_neg hu] at hfind
    exact hm u pc hfind

theorem mapUnclosed_initPCs (selfId : UserId) :
    ∀ (ps : List UserId) (m : List (UserId × RTCPeerConnection)),
      mapUnclosed m → mapUnclosed (initPCs selfId ps m) := by
  intro ps
  induction ps with
  | nil => intro m hm; exact hm
  | cons q rest ih =>
      intro m hm
      by_cases hq : q = selfId
      · simpa [initPCs, hq] using ih m hm
      · simp only [initPCs, if_neg hq]
        exact ih _ (mapUnclosed_setPC m q freshPC hm rfl)

/-- What `startCall` leaves at a key: the old connection, or the old
connection with the local offer applied. -/
theorem startCallLoop_findPC (selfId room : String) :
    ∀ (m : List (UserId × RTCPeerConnection)) (u : UserId)
      (pc' : RTCPeerConnection),
      findPC (startCallLoop selfId room m).1 u = some pc' →
      ∃ pc, findPC m u = some pc ∧
        (pc' = pc ∨ setLocalOffer pc (offerSdpFrom selfId) = some pc') := by
  intro m
  induction m with
  | nil =>
      intro u pc' h
      simp [startCallLoop, findPC] at h
  | cons kv rest ih =>
      obtain ⟨k, v⟩ := kv
      intro u pc' h
      cases hsl : setLocalOffer v (offerSdpFrom selfId) with
      | none =>
          have he : (startCallLoop selfId room ((k, v) :: rest)).1 =
              (k, v) :: rest := by
            simp [startCallLoop, hsl]
          rw [he] at h
          exact ⟨pc', h, Or.inl rfl⟩
      | some v1 =>
          have he : (startCallLoop selfId room ((k, v) :: rest)).1 =
              (k, v1) :: (startCallLoop selfId room rest).1 := by
            simp [startCallLoop, hsl]
          rw [he] at h
          rw [findPC] at h
          by_cases hk : k = u
          · rw [if_pos hk] at h
            injection h with h
            subst h
            refine ⟨v, ?_, Or.inr hsl⟩
            rw [findPC, if_pos hk]
          · rw [if_neg hk] at h
            obtain ⟨pc, hpc, hor⟩ := ih u pc' h
            refine ⟨pc, ?_, hor⟩
            rw [findPC, if_neg hk]
            exact hpc

theorem mapUnclosed_startCallLoop (selfId room : String)
    (m : List (UserId × RTCPeerConnection)) (hm : mapUnclosed m) :
    mapUnclosed (startCallLoop selfId room m).1 := by
  intro u pc hfind
  obtain ⟨pcold, hold, hor⟩ := startCallLoop_findPC selfId room m u pc hfind
  cases hor with
  | inl h => exact h ▸ hm u pcold hold
  | inr h => exact setLocalOffer_unclosed _ _ _ h

theorem level_mono_of_eq {s t : CallComponentState} (he : t = s) :
    ∀ u pcA pcA', findPC s.peerConnections u = some pcA →
      findPC t.peerConnections u = some pcA' → level pcA ≤ level pcA' := by
  subst he
  intro u pcA pcA' hA hA'
  rw [hA] at hA'
  injection hA' with hA'
  subst hA'
  exact le_refl _

/-- Across any processed event, no live connection's rank in the
specification machine decreases. -/
theorem step_level_mono (s : CallComponentState) (e : CallEvent)
    (hinit : e = CallEvent.localInit → s.peerConnections = []) :
    ∀ u pcA pcA', findPC s.peerConnections u = some pcA →
      findPC (step s e).peerConnections u = some pcA' → level pcA ≤ level pcA' := by
  cases e with
  | signal se =>
      cases se with
      | offer p =>
          by_cases hto : p.to' = s.userId
          · have he : step s (CallEvent.signal (SignalEvent.offer p)) =
                handleOffer s p := by simp [step, hto]
            rw [he]
            exact handleOffer_level_mono s p
          · exact level_mono_of_eq (by simp [step, hto])
      | answer p =>
          by_cases hto : p.to' = s.userId
          · have he : step s (CallEvent.signal (SignalEvent.answer p)) =
                handleAnswer s p := by simp [step, hto]
            rw [he]
            exact handleAnswer_level_mono s p
          · exact level_mono_of_eq (by simp [step, hto])
      | iceCandidate p =>
          by_cases hto : p.to' = s.userId
          · have he : step s (CallEvent.signal (SignalEvent.iceCandidate p)) =
                handleIceCandidate s p := by simp [step, hto]
            rw [he]
            exact handleIceCandidate_level_mono s p
          · exact level_mono_of_eq (by simp [step, hto])
      | callEnded f room =>
          by_cases hr : room = s.chatRoomId
          · intro u pcA pcA' hA hA'
            have he : (step s (CallEvent.signal (SignalEvent.callEnded f room))).peerConnections = [] := by
              simp [step, hr, cleanup]
            rw [he] at hA'
            simp [findPC] at hA'
          · exact level_mono_of_eq (by simp [step, hr])
  | localInit =>
      intro u pcA pcA' hA hA'
      rw [hinit rfl] at hA
      simp [findPC] at hA
  | startCallFx =>
      intro u pcA pcA' hA hA'
      have he : (step s CallEvent.startCallFx).peerConnections =
          (startCallLoop s.userId s.chatRoomId s.peerConnections).1 := rfl
      rw [he] at hA'
      exact startCallLoop_level_mono s.userId s.chatRoomId s.peerConnections
        u pcA pcA' hA hA'
  | trackArrived v => exact onTrack_level_mono s v
  | muteClick =>
      intro u pcA pcA' hA hA'
      have he : step s CallEvent.muteClick = toggleMute s := rfl
      rw [he, (toggleMute_frame s).1] at hA'
      rw [hA] at hA'
      injection hA' with hA'
      subst hA'
      exact le_refl _
  | videoClick =>
      intro u pcA pcA' hA hA'
      have he : step s CallEvent.videoClick = toggleVideo s := rfl
      rw [he, (toggleVideo_frame s).1] at hA'
      rw [hA] at hA'
      injection hA' with hA'
      subst hA'
      exact le_refl _
  | endCallClick =>
      intro u pcA pcA' hA hA'
      have he : (step s CallEvent.endCallClick).peerConnections = [] := rfl
      rw [he] at hA'
      simp [findPC] at hA'

/-- Closed connections land in the `destroyed` graveyard, which is
append-only: no event ever mutates or revives an already-closed
connection. -/
theorem step_destroyed_append (s : CallComponentState) (e : CallEvent) :
    ∃ t, (step s e).destroyed = s.destroyed ++ t ∧
      ∀ pc ∈ t, pc.closed = true := by
  cases e with
  | signal se =>
      cases se with
      | offer p =>
          refine ⟨[], ?_, by simp⟩
          by_cases hto : p.to' = s.userId <;>
            simp [step, hto, handleOffer_destroyed]
      | answer p =>
          refine ⟨[], ?_, by simp⟩
          by_cases hto : p.to' = s.userId <;>
            simp [step, hto, handleAnswer_destroyed]
      | iceCandidate p =>
          refine ⟨[], ?_, by simp⟩
          by_cases hto : p.to' = s.userId <;>
            simp [step, hto, handleIceCandidate_destroyed]
      | callEnded f room =>
          by_cases hr : room = s.chatRoomId
          · refine ⟨s.peerConnections.map (fun kv => closePC kv.2), ?_, ?_⟩
            · simp [step, hr, cleanup]
            · intro pc hmem
              rw [List.mem_map] at hmem
              obtain ⟨kv, _, hkv⟩ := hmem
              rw [← hkv]
              rfl
          · exact ⟨[], by simp [step, hr], by simp⟩
  | localInit => exact ⟨[], by simp [step, runLocalInit], by simp⟩
  | startCallFx => exact ⟨[], by simp [step, startCall], by simp⟩
  | trackArrived v => exact ⟨[], by simp [step, onTrack_destroyed], by simp⟩
  | muteClick => exact ⟨[], by simp [step, (toggleMute_frame s).2], by simp⟩
  | videoClick => exact ⟨[], by simp [step, (toggleVideo_frame s).2], by simp⟩
  | endCallClick =>
      refine ⟨s.peerConnections.map (fun kv => closePC kv.2), ?_, ?_⟩
      · simp [step, endCall, endCallWith, cleanup]
      · intro pc hmem
        rw [List.mem_map] at hmem
        obtain ⟨kv, _, hkv⟩ := hmem
        rw [← hkv]
        rfl

theorem handleOffer_mapUnclosed (s : CallComponentState) (p : SignalPayload)
    (hm : mapUnclosed s.peerConnections) :
    mapUnclosed (handleOffer s p).peerConnections := by
  cases hf : findPC s.peerConnections p.from' with
  | none => simpa [handleOffer, hf] using hm
  | some pc =>
      cases hro : setRemoteOffer pc p.body with
      | none => simpa [handleOffer, hf, hro] using hm
      | some pc1 =>
          cases hla : setLocalAnswer pc1 (answerSdpFor p.body) with
          | none =>
              have he : (handleOffer s p).peerConnections =
                  setPC s.peerConnections p.from' pc1 := by
                simp [handleOffer, hf, hro, hla]
              rw [he]
              exact mapUnclosed_setPC _ _ _ hm (setRemoteOffer_unclosed _ _ _ hro)
          | some pc2 =>
              have he : (handleOffer s p).peerConnections =
                  setPC s.peerConnections p.from' pc2 := by
                simp [handleOffer, hf, hro, hla]
              rw [he]
              exact mapUnclosed_setPC _ _ _ hm (setLocalAnswer_unclosed _ _ _ hla)

theorem handleAnswer_mapUnclosed (s : CallComponentState) (p : SignalPayload)
    (hm : mapUnclosed s.peerConnections) :
    mapUnclosed (handleAnswer s p).peerConnections := by
  cases hf : findPC s.peerConnections p.from' with
  | none => simpa [handleAnswer, hf] using hm
  | some pc =>
      cases hra : setRemoteAnswer pc p.body with
      | none => simpa [handleAnswer, hf, hra] using hm
      | some pc1 =>
          have he : (handleAnswer s p).peerConnections =
              setPC s.peerConnections p.from' pc1 := by
            simp [handleAnswer, hf, hra]
          rw [he]
          exact mapUnclosed_setPC _ _ _ hm (setRemoteAnswer_unclosed _ _ _ hra)

theorem handleIceCandidate_mapUnclosed (s : CallComponentState) (p : SignalPayload)
    (hm : mapUnclosed s.peerConnections) :
    mapUnclosed (handleIceCandidate s p).peerConnections := by
  cases hf : findPC s.peerConnections p.from' with
  | none => simpa [handleIceCandidate, hf] using hm
  | some pc =>
      cases hai : addIceCandidate pc p.body with
      | none => simpa [handleIceCandidate, hf, hai] using hm
      | some pc1 =>
          have he : (handleIceCandidate s p).peerConnections =
              setPC s.peerConnections p.from' pc1 := by
            simp [handleIceCandidate, hf, hai]
          rw [he]
          exact mapUnclosed_setPC _ _ _ hm (addIceCandidate_unclosed _ _ _ hai)

theorem onTrack_mapUnclosed (s : CallComponentState) (v : UserId)
    (hm : mapUnclosed s.peerConnections) :
    mapUnclosed (onTrack s v).peerConnections := by
  cases hf : findPC s.peerConnections v with
  | none => simpa [onTrack, hf] using hm
  | some pc =>
      have he : (onTrack s v).peerConnections =
          setPC s.peerConnections v { pc with connected := true } := by
        simp [onTrack, hf]
      rw [he]
      exact mapUnclosed_setPC _ _ _ hm (by simpa using hm v pc hf)

/-- A closed connection never (re-)enters the live map: every event
preserves the fact that the map holds only unclosed connections. -/
theorem step_mapUnclosed (s : CallComponentState) (e : CallEvent)
    (hm : mapUnclosed s.peerConnections) :
    mapUnclosed (step s e).peerConnections := by
  cases e with
  | signal se =>
      cases se with
      | offer p =>
          by_cases hto : p.to' = s.userId
          · simpa [step, hto] using handleOffer_mapUnclosed s p hm
          · simpa [step, hto] using hm
      | answer p =>
          by_cases hto : p.to' = s.userId
          · simpa [step, hto] using handleAnswer_mapUnclosed s p hm
          · simpa [step, hto] using hm
      | iceCandidate p =>
          by_cases hto : p.to' = s.userId
          · simpa [step, hto] using handleIceCandidate_mapUnclosed s p hm
          · simpa [step, hto] using hm
      | callEnded f room =>
          by_cases hr : room = s.chatRoomId
          · intro u pc hfind
            have he : (step s (CallEvent.signal (SignalEvent.callEnded f room))).peerConnections = [] := by
              simp [step, hr, cleanup]
            rw [he] at hfind
            simp [findPC] at hfind
          · simpa [step, hr] using hm
  | localInit => exact mapUnclosed_initPCs s.userId s.participants _ hm
  | startCallFx => exact mapUnclosed_startCallLoop s.userId s.chatRoomId _ hm
  | trackArrived v => exact onTrack_mapUnclosed s v hm
  | muteClick =>
      intro u pc hfind
      have he : step s CallEvent.muteClick = toggleMute s := rfl
      rw [he, (toggleMute_frame s).1] at hfind
      exact hm u pc hfind
  | videoClick =>
      intro u pc hfind
      have he : step s CallEvent.videoClick = toggleVideo s := rfl
      rw [he, (toggleVideo_frame s).1] at hfind
      exact hm u pc hfind
  | endCallClick =>
      intro u pc hfind
      have he : (step s CallEvent.endCallClick).peerConnections = [] := rfl
      rw [he] at hfind
      simp [findPC] at hfind

/-! ### Mute-toggle lemmas -/

theorem firstAudioTrack_toggleFirstAudio (tracks : List MediaStreamTrack) :
    firstAudioTrack (toggleFirstAudio tracks) =
      (firstAudioTrack tracks).map (fun t => { t with enabled := !t.enabled }) := by
  induction tracks with
  | nil => rfl
  | cons t rest ih =>
      by_cases hk : t.kind = TrackKind.audio
      · simp [toggleFirstAudio, firstAudioTrack, hk]
      · simp only [toggleFirstAudio, if_neg hk]
        simp only [firstAudioTrack] at ih ⊢
        rw [List.find?_cons_of_neg, List.find?_cons_of_neg, ih]
        · simpa using hk
        · simpa using hk

theorem toggleFirstAudio_involutive (tracks : List MediaStreamTrack) :
    toggleFirstAudio (toggleFirstAudio tracks) = tracks := by
  induction tracks with
  | nil => rfl
  | cons t rest ih =>
      obtain ⟨k, en, stp⟩ := t
      by_cases hk : k = TrackKind.audio
      · subst hk
        simp [toggleFirstAudio]
      · simp [toggleFirstAudio, hk, ih]

/-! ### Send-loop lemmas -/

/-- The recipients the aborting loop actually attempts: the failure-free
front of the list, plus the first failing recipient if there is one. -/
def expectedAttempts (recipients : List UserId) (fails : UserId → Bool) :
    List UserId :=
  let pre := recipients.takeWhile (fun r => !(fails r))
  pre ++ (recipients.drop pre.length).take 1

theorem broadcastLoop_eq (fails : UserId → Bool) :
    ∀ recipients : List UserId,
      broadcastLoop fails recipients =
        (expectedAttempts recipients fails,
          if recipients.any fails then some "channel send failed" else none) := by
  intro recipients
  induction recipients with
  | nil => rfl
  | cons r rest ih =>
      cases hf : fails r
      · simp only [broadcastLoop, hf, Bool.false_eq_true, if_false, ih]
        simp [expectedAttempts, List.takeWhile, hf]
      · simp only [broadcastLoop, hf, if_true]
        simp [expectedAttempts, List.takeWhile, hf]

/-! ### Invites-channel lemmas -/

/-- Reachable-state invariant of the invites module: at most one creation,
at most one subscription, and every handle handed out is the single
channel. -/
def invitesInv (st : InvitesChannelState) : Prop :=
  (st.invitesChannel = none ∧ st.createCount = 0 ∨
    st.invitesChannel = some 0 ∧ st.createCount = 1) ∧
  (st.subscribed = false ∧ st.subscribeCount = 0 ∨
    st.subscribed = true ∧ st.subscribeCount = 1) ∧
  (∀ c ∈ st.handlesReturned, c = 0)

theorem invitesInv_getInvitesChannel (st : InvitesChannelState)
    (h : invitesInv st) : invitesInv (getInvitesChannel st).1 ∧
      (getInvitesChannel st).2 = 0 := by
  obtain ⟨hch, hsub, hhandles⟩ := h
  cases hch with
  | inl hnone =>
      obtain ⟨hc0, hcc⟩ := hnone
      cases hsub with
      | inl hs0 =>
          refine ⟨⟨Or.inr ⟨?_, ?_⟩, Or.inr ⟨?_, ?_⟩, ?_⟩, ?_⟩ <;>
            simp [getInvitesChannel, hc0, hcc, hs0.1, hs0.2, hhandles] <;>
            (intro c hc
             cases hc with
             | inl h => exact hhandles c h
             | inr h => exact h)
      | inr hs1 =>
          refine ⟨⟨Or.inr ⟨?_, ?_⟩, Or.inr ⟨?_, ?_⟩, ?_⟩, ?_⟩ <;>
            simp [getInvitesChannel, hc0, hcc, hs1.1, hs1.2, hhandles] <;>
            (intro c hc
             cases hc with
             | inl h => exact hhandles c h
             | inr h => exact h)
  | inr hsome =>
      obtain ⟨hc0, hcc⟩ := hsome
      cases hsub with
      | inl hs0 =>
          refine ⟨⟨Or.inr ⟨?_, ?_⟩, Or.inr ⟨?_, ?_⟩, ?_⟩, ?_⟩ <;>
            simp [getInvitesChannel, hc0, hcc, hs0.1, hs0.2, hhandles] <;>
            (intro c hc
             cases hc with
             | inl h => exact hhandles c h
             | inr h => exact h)
      | inr hs1 =>
          refine ⟨⟨Or.inr ⟨?_, ?_⟩, Or.inr ⟨?_, ?_⟩, ?_⟩, ?_⟩ <;>
            simp [getInvitesChannel, hc0, hcc, hs1.1, hs1.2, hhandles] <;>
            (intro c hc
             cases hc with
             | inl h => exact hhandles c h
             | inr h => exact h)

theorem invitesInv_runInviteApi (calls : List InviteApiCall) :
    ∀ st : InvitesChannelState, invitesInv st →
      invitesInv (runInviteApi st calls) := by
  induction calls with
  | nil => intro st h; exact h
  | cons c rest ih =>
      intro st h
      exact ih _ (invitesInv_getInvitesChannel st h).1

/-! ### Teardown-trace lemmas -/

/-- `true` iff no `stopTrack` step occurs after a `closePeer` step — the
order the code actually produces (tracks stopped first, connections
closed afterwards) satisfies this. -/
def noStopAfterClose : List TeardownStep → Bool
  | [] => true
  | t :: rest =>
      (!(isCloseStep t) || !(rest.any isStopStep)) && noStopAfterClose rest

theorem noStopAfterClose_of_no_stop (l : List TeardownStep)
    (h : l.any isStopStep = false) : noStopAfterClose l = true := by
  induction l with
  | nil => rfl
  | cons t rest ih =>
      rw [List.any_cons, Bool.or_eq_false_iff] at h
      rw [noStopAfterClose, h.2, ih h.2]
      simp

theorem noStopAfterClose_append_nonclose (l₂ : List TeardownStep) :
    ∀ l₁ : List TeardownStep, (∀ t ∈ l₁, isCloseStep t = false) →
      noStopAfterClose (l₁ ++ l₂) = noStopAfterClose l₂ := by
  intro l₁
  induction l₁ with
  | nil => intro _; rfl
  | cons t rest ih =>
      intro h
      rw [List.cons_append, noStopAfterClose, ih (fun x hx => h x (by simp [hx]))]
      rw [h t (by simp)]
      simp

/-! ### Peer-connection creation lemmas -/

theorem findPC_initPCs (selfId : UserId) :
    ∀ (ps : List UserId) (m : List (UserId × RTCPeerConnection)) (u : UserId),
      findPC (initPCs selfId ps m) u =
        if u ≠ selfId ∧ u ∈ ps then some freshPC else findPC m u := by
  intro ps
  induction ps with
  | nil =>
      intro m u
      simp [initPCs]
  | cons q rest ih =>
      intro m u
      by_cases hq : q = selfId
      · subst hq
        rw [initPCs, if_pos rfl, ih]
        by_cases hu : u = q
        · subst hu
          simp
        · by_cases hur : u ∈ rest <;> simp [hu, hur]
      · rw [initPCs, if_neg hq, ih, findPC_setPC]
        by_cases hu : u = selfId
        · subst hu
          have hque : ¬ u = q := fun h => hq h.symm
          simp [hque]
        · by_cases huq : u = q
          · subst huq
            simp [hu]
          · by_cases hur : u ∈ rest <;> simp [hu, huq, hur]

theorem findPC_ne_none_of_update (m : List (UserId × RTCPeerConnection))
    (u0 : UserId) (pc0 pc1 : RTCPeerConnection)
    (hfind : findPC m u0 = some pc0) (u : UserId)
    (h : findPC (setPC m u0 pc1) u ≠ none) : findPC m u ≠ none := by
  rw [findPC_setPC] at h
  by_cases hu : u = u0
  · subst hu
    rw [hfind]
    simp
  · rw [if_neg hu] at h
    exact h

/-- No broadcast ever inserts a new key into the connection map. -/
theorem step_signal_no_new_pc (s : CallComponentState) (se : SignalEvent)
    (u : UserId)
    (h : findPC (step s (CallEvent.signal se)).peerConnections u ≠ none) :
    findPC s.peerConnections u ≠ none := by
  cases se with
  | offer p =>
      by_cases hto : p.to' = s.userId
      · rw [show step s (CallEvent.signal (SignalEvent.offer p)) = handleOffer s p
            from by simp [step, hto]] at h
        cases hf : findPC s.peerConnections p.from' with
        | none => rwa [show handleOffer s p = s from by simp [handleOffer, hf]] at h
        | some pc =>
            cases hro : setRemoteOffer pc p.body with
            | none =>
                rwa [show handleOffer s p = s from by simp [handleOffer, hf, hro]] at h
            | some pc1 =>
                cases hla : setLocalAnswer pc1 (answerSdpFor p.body) with
                | none =>
                    rw [show (handleOffer s p).peerConnections =
                        setPC s.peerConnections p.from' pc1 from by
                      simp [handleOffer, hf, hro, hla]] at h
                    exact findPC_ne_none_of_update _ _ _ _ hf u h
                | some pc2 =>
                    rw [show (handleOffer s p).peerConnections =
                        setPC s.peerConnections p.from' pc2 from by
                      simp [handleOffer, hf, hro, hla]] at h
                    exact findPC_ne_none_of_update _ _ _ _ hf u h
      · rwa [show step s (CallEvent.signal (SignalEvent.offer p)) = s from by
          simp [step, hto]] at h
  | answer p =>
      by_cases hto : p.to' = s.userId
      · rw [show step s (CallEvent.signal (SignalEvent.answer p)) = handleAnswer s p
            from by simp [step, hto]] at h
        cases hf : findPC s.peerConnections p.from' with
        | none => rwa [show handleAnswer s p = s from by simp [handleAnswer, hf]] at h
        | some pc =>
            cases hra : setRemoteAnswer pc p.body with
            | none =>
                rwa [show handleAnswer s p = s from by simp [handleAnswer, hf, hra]] at h
            | some pc1 =>
                rw [show (handleAnswer s p).peerConnections =
                    setPC s.peerConnections p.from' pc1 from by
                  simp [handleAnswer, hf, hra]] at h
                exact findPC_ne_none_of_update _ _ _ _ hf u h
      · rwa [show step s (CallEvent.signal (SignalEvent.answer p)) = s from by
          simp [step, hto]] at h
  | iceCandidate p =>
      by_cases hto : p.to' = s.userId
      · rw [show step s (CallEvent.signal (SignalEvent.iceCandidate p)) =
            handleIceCandidate s p from by simp [step, hto]] at h
        cases hf : findPC s.peerConnections p.from' with
        | none =>
            rwa [show handleIceCandidate s p = s from by
              simp [handleIceCandidate, hf]] at h
        | some pc =>
            cases hai : addIceCandidate pc p.body with
            | none =>
                rwa [show handleIceCandidate s p = s from by
                  simp [handleIceCandidate, hf, hai]] at h
            | some pc1 =>
                rw [show (handleIceCandidate s p).peerConnections =
                    setPC s.peerConnections p.from' pc1 from by
                  simp [handleIceCandidate, hf, hai]] at h
                exact findPC_ne_none_of_update _ _ _ _ hf u h
      · rwa [show step s (CallEvent.signal (SignalEvent.iceCandidate p)) = s from by
          simp [step, hto]] at h
  | callEnded f room =>
      by_cases hr : room = s.chatRoomId
      · rw [show (step s (CallEvent.signal (SignalEvent.callEnded f room))).peerConnections = []
            from by simp [step, hr, cleanup]] at h
        simp [findPC] at h
      · rwa [show step s (CallEvent.signal (SignalEvent.callEnded f room)) = s from by
          simp [step, hr]] at h

/-! ## Claim theorems -/

/-- C1 (counterexample). In the concrete run `localInit`; ICE candidate
`c1` from `a` (delivered before any remote description is applied); offer
`o1` from `a`, the remote description ends up applied (`["o1"]`) but the
early candidate was dropped, not buffered and flushed: the connection's
applied-candidate list is empty.  This refutes the claim that a candidate
arriving before the remote description is buffered in
`pendingRemoteCandidates` and flushed once the description is applied. -/
theorem iceCandidate_buffering_counterexample :
    (findPC
        (step
          (step
            (step (mkCallState "me" "room1" ["me", "a"] CallType.voice)
              CallEvent.localInit)
            (CallEvent.signal (SignalEvent.iceCandidate
              { from' := "a", to' := "me", chatRoomId := "room1", body := "c1" })))
          (CallEvent.signal (SignalEvent.offer
            { from' := "a", to' := "me", chatRoomId := "room1", body := "o1" }))).peerConnections
        "a").map (fun pc => pc.remoteDescriptions) = some ["o1"] ∧
    (findPC
        (step
          (step
            (step (mkCallState "me" "room1" ["me", "a"] CallType.voice)
              CallEvent.localInit)
            (CallEvent.signal (SignalEvent.iceCandidate
              { from' := "a", to' := "me", chatRoomId := "room1", body := "c1" })))
          (CallEvent.signal (SignalEvent.offer
            { from' := "a", to' := "me", chatRoomId := "room1", body := "o1" }))).peerConnections
        "a").map (fun pc => pc.appliedCandidates.contains "c1") = some false := by
  decide

/-- C1 (amended). `handleIceCandidate` performs no buffering: a candidate
from a sender with no connection is ignored; a candidate arriving while no
remote description is applied is passed to `addIceCandidate` immediately,
which rejects, and the candidate is lost (the component state is
unchanged — nothing is retained for a later flush); only a candidate
arriving after the remote description is applied is recorded. -/
theorem handleIceCandidate_no_buffering (s : CallComponentState)
    (p : SignalPayload) :
    (findPC s.peerConnections p.from' = none →
      step s (CallEvent.signal (SignalEvent.iceCandidate p)) = s) ∧
    (∀ pc, findPC s.peerConnections p.from' = some pc →
      pc.remoteDescriptions = [] →
      step s (CallEvent.signal (SignalEvent.iceCandidate p)) = s) ∧
    (∀ pc, findPC s.peerConnections p.from' = some pc →
      p.to' = s.userId → pc.closed = false → pc.remoteDescriptions ≠ [] →
      ∃ pc', findPC
          (step s (CallEvent.signal (SignalEvent.iceCandidate p))).peerConnections
          p.from' = some pc' ∧
        pc'.appliedCandidates = pc.appliedCandidates ++ [p.body]) := by
  refine ⟨?_, ?_, ?_⟩
  · intro hf
    by_cases hto : p.to' = s.userId
    · simp [step, hto, handleIceCandidate, hf]
    · simp [step, hto]
  · intro pc hf hre
    by_cases hto : p.to' = s.userId
    · have hai : addIceCandidate pc p.body = none := by
        simp [addIceCandidate, hre]
      simp [step, hto, handleIceCandidate, hf, hai]
    · simp [step, hto]
  · intro pc hf hto hcl hre
    have hai : addIceCandidate pc p.body =
        some { pc with appliedCandidates := pc.appliedCandidates ++ [p.body] } := by
      have : pc.remoteDescriptions.isEmpty = false := by
        cases hrd : pc.remoteDescriptions with
        | nil => exact absurd hrd hre
        | cons a l => rfl
      simp [addIceCandidate, hcl, this]
    refine ⟨{ pc with appliedCandidates := pc.appliedCandidates ++ [p.body] }, ?_, rfl⟩
    have he : (step s (CallEvent.signal (SignalEvent.iceCandidate p))).peerConnections =
        setPC s.peerConnections p.from'
          { pc with appliedCandidates := pc.appliedCandidates ++ [p.body] } := by
      simp [step, hto, handleIceCandidate, hf, hai]
    rw [he, findPC_setPC, if_pos rfl]

/-- C1 (witness for the amended theorem): the three cases at concrete
inputs. -/
theorem handleIceCandidate_no_buffering_witness :
    (step (mkCallState "me" "room1" ["me", "a"] CallType.voice)
        (CallEvent.signal (SignalEvent.iceCandidate
          { from' := "a", to' := "me", chatRoomId := "room1", body := "c1" })) =
      mkCallState "me" "room1" ["me", "a"] CallType.voice) ∧
    (step (step (mkCallState "me" "room1" ["me", "a"] CallType.voice)
          CallEvent.localInit)
        (CallEvent.signal (SignalEvent.iceCandidate
          { from' := "a", to' := "me", chatRoomId := "room1", body := "c1" })) =
      step (mkCallState "me" "room1" ["me", "a"] CallType.voice)
        CallEvent.localInit) ∧
    (∃ pc', findPC
        (step
          (step (step (mkCallState "me" "room1" ["me", "a"] CallType.voice)
              CallEvent.localInit)
            (CallEvent.signal (SignalEvent.offer
              { from' := "a", to' := "me", chatRoomId := "room1", body := "o1" })))
          (CallEvent.signal (SignalEvent.iceCandidate
            { from' := "a", to' := "me", chatRoomId := "room1", body := "c2" }))).peerConnections
        "a" = some pc' ∧
      pc'.appliedCandidates =
        RTCPeerConnection.appliedCandidates
          { signalingState := SignalingState.stable
            remoteDescriptions := ["o1"]
            localDescriptions := ["answer-to-o1"]
            appliedCandidates := []
            connected := false
            closed := false } ++ ["c2"]) := by
  refine ⟨?_, ?_, ?_⟩
  · exact (handleIceCandidate_no_buffering
      (mkCallState "me" "room1" ["me", "a"] CallType.voice)
      { from' := "a", to' := "me", chatRoomId := "room1", body := "c1" }).1
      (by decide)
  · exact (handleIceCandidate_no_buffering
      (step (mkCallState "me" "room1" ["me", "a"] CallType.voice)
        CallEvent.localInit)
      { from' := "a", to' := "me", chatRoomId := "room1", body := "c1" }).2.1
      freshPC (by decide) (by decide)
  · exact (handleIceCandidate_no_buffering
      (step (step (mkCallState "me" "room1" ["me", "a"] CallType.voice)
          CallEvent.localInit)
        (CallEvent.signal (SignalEvent.offer
          { from' := "a", to' := "me", chatRoomId := "room1", body := "o1" })))
      { from' := "a", to' := "me", chatRoomId := "room1", body := "c2" }).2.2
      { signalingState := SignalingState.stable
        remoteDescriptions := ["o1"]
        localDescriptions := ["answer-to-o1"]
        appliedCandidates := []
        connected := false
        closed := false }
      (by decide) (by decide) (by decide) (by decide)

/-- C3 (counterexample). With recipients `[r1, r2]` and the publish to
`r1` failing, the loop aborts inside the single `try`: `r2` is never
attempted, refuting the claim that a failure for one recipient does not
prevent attempts to the remaining ones.  The same holds for
`sendCallCancelled`. -/
theorem sendCallInvite_abort_counterexample :
    (sendCallInvite ["r1", "r2"] (fun u => u == "r1")).1 = ["r1"] ∧
    ("r2" ∈ (sendCallInvite ["r1", "r2"] (fun u => u == "r1")).1 → False) ∧
    (sendCallCancelled ["r1", "r2"] (fun u => u == "r1")).1 = ["r1"] ∧
    ("r2" ∈ (sendCallCancelled ["r1", "r2"] (fun u => u == "r1")).1 → False) := by
  decide

/-- C3 (amended). In `sendCallInvite` and `sendCallCancelled` the `try`
wraps the whole dispatch loop, so the first failing publish aborts the
attempts to every later recipient: exactly the failure-free front of the
list plus the first failing recipient are attempted.  The caught error is
logged, never raised to the caller (both functions return normally, with
the logged-error flag exactly when some recipient failed). -/
theorem sendInvite_fault_containment (recipients : List UserId)
    (fails : UserId → Bool) :
    sendCallInvite recipients fails =
      (expectedAttempts recipients fails, recipients.any fails) ∧
    sendCallCancelled recipients fails =
      (expectedAttempts recipients fails, recipients.any fails) := by
  constructor <;>
    · simp only [sendCallInvite, sendCallCancelled, broadcastLoop_eq]
      cases recipients.any fails <;> simp

/-- C4 (code bug). The `call-cancelled` handler's guard compares the
payload's `chatRoomId` with the `incomingCall` captured when the
subscription effect ran (dependency list `[user]`), which is `none`; so
after `Invite` followed by a matching `CallCancelled` addressed to the
recipient, the pending incoming call is NOT cleared and `acceptIncoming`
would still start the call — the claim's required behaviour does not hold
on the code. -/
theorem callCancelled_stale_capture_bug :
    (inviteStep
        (inviteStep (mkIncomingCallsState "u2")
          (InviteEvent.incomingCall
            { chatRoomId := "room1", callType := CallType.voice, from' := "u1",
              to' := "u2", participants := ["u1", "u2"] }))
        (InviteEvent.callCancelled "room1" "u1" "u2")).incomingCall ≠ none ∧
    acceptIncoming
        (inviteStep
          (inviteStep (mkIncomingCallsState "u2")
            (InviteEvent.incomingCall
              { chatRoomId := "room1", callType := CallType.voice, from' := "u1",
                to' := "u2", participants := ["u1", "u2"] }))
          (InviteEvent.callCancelled "room1" "u1" "u2")) =
      some ("room1", CallType.voice, ["u1", "u2"]) := by
  decide

/-- C5 (counterexample). After `localInit` and an offer `o1` from `a`, the
connection for `a` is negotiated (`stable`, remote description applied).
Delivering the very same offer a second time does NOT leave the state
unchanged: the offer is reapplied (remote descriptions `["o1", "o1"]`) and
a second answer is broadcast — there is no duplicate guard, refuting the
claim that a duplicate `Offer` is ignored. -/
theorem duplicate_offer_counterexample :
    (step
        (step (step (mkCallState "me" "room1" ["me", "a"] CallType.voice)
            CallEvent.localInit)
          (CallEvent.signal (SignalEvent.offer
            { from' := "a", to' := "me", chatRoomId := "room1", body := "o1" })))
        (CallEvent.signal (SignalEvent.offer
          { from' := "a", to' := "me", chatRoomId := "room1", body := "o1" })) ≠
      step (step (mkCallState "me" "room1" ["me", "a"] CallType.voice)
          CallEvent.localInit)
        (CallEvent.signal (SignalEvent.offer
          { from' := "a", to' := "me", chatRoomId := "room1", body := "o1" }))) ∧
    (findPC
        (step
          (step (step (mkCallState "me" "room1" ["me", "a"] CallType.voice)
              CallEvent.localInit)
            (CallEvent.signal (SignalEvent.offer
              { from' := "a", to' := "me", chatRoomId := "room1", body := "o1" })))
          (CallEvent.signal (SignalEvent.offer
            { from' := "a", to' := "me", chatRoomId := "room1", body := "o1" }))).peerConnections
        "a").map (fun pc => pc.remoteDescriptions) = some ["o1", "o1"] := by
  decide

/-- C5 (amended). There is no duplicate guard in the handlers.  A
duplicate `Answer` to a connection in `stable` (already negotiated) leaves
the component state unchanged — but only because the browser rejects
`setRemoteDescription(answer)` in `stable`, not because the handler checks
anything.  A duplicate `Offer` to a `stable` connection IS fully
reprocessed: the remote description is applied again and a fresh answer is
created and broadcast. -/
theorem duplicate_signal_no_guard (s : CallComponentState) (p : SignalPayload) :
    (∀ pc, findPC s.peerConnections p.from' = some pc →
      pc.signalingState = SignalingState.stable →
      step s (CallEvent.signal (SignalEvent.answer p)) = s) ∧
    (∀ pc, findPC s.peerConnections p.from' = some pc →
      p.to' = s.userId → pc.closed = false →
      pc.signalingState = SignalingState.stable →
      ∃ pc', findPC
          (step s (CallEvent.signal (SignalEvent.offer p))).peerConnections
          p.from' = some pc' ∧
        pc'.remoteDescriptions = pc.remoteDescriptions ++ [p.body] ∧
        (step s (CallEvent.signal (SignalEvent.offer p))).outbox =
          s.outbox ++
            [SignalEvent.answer
              { from' := s.userId
                to' := p.from'
                chatRoomId := s.chatRoomId
                body := answerSdpFor p.body }]) := by
  constructor
  · intro pc hf hs
    by_cases hto : p.to' = s.userId
    · have hra : setRemoteAnswer pc p.body = none := by
        cases hc : pc.closed <;> simp [setRemoteAnswer, hc, hs]
      simp [step, hto, handleAnswer, hf, hra]
    · simp [step, hto]
  · intro pc hf hto hcl hs
    have hro : setRemoteOffer pc p.body =
        some { pc with
                signalingState := .haveRemoteOffer
                remoteDescriptions := pc.remoteDescriptions ++ [p.body] } := by
      simp [setRemoteOffer, hcl, hs]
    have hla : setLocalAnswer
        { pc with
            signalingState := .haveRemoteOffer
            remoteDescriptions := pc.remoteDescriptions ++ [p.body] }
        (answerSdpFor p.body) =
        some { pc with
                signalingState := .stable
                remoteDescriptions := pc.remoteDescriptions ++ [p.body]
                localDescriptions := pc.localDescriptions ++ [answerSdpFor p.body] } := by
      simp [setLocalAnswer, hcl]
    refine ⟨{ pc with
        signalingState := .stable
        remoteDescriptions := pc.remoteDescriptions ++ [p.body]
        localDescriptions := pc.localDescriptions ++ [answerSdpFor p.body] },
      ?_, rfl, ?_⟩
    · have he : (step s (CallEvent.signal (SignalEvent.offer p))).peerConnections =
          setPC s.peerConnections p.from'
            { pc with
                signalingState := .stable
                remoteDescriptions := pc.remoteDescriptions ++ [p.body]
                localDescriptions := pc.localDescriptions ++ [answerSdpFor p.body] } := by
        simp [step, hto, handleOffer, hf, hro, hla]
      rw [he, findPC_setPC, if_pos rfl]
    · simp [step, hto, handleOffer, hf, hro, hla]

/-- C5 (witness for the amended theorem): at a negotiated connection, a
duplicate answer is a no-op and a duplicate offer appends a second remote
description and a second broadcast answer. -/
theorem duplicate_signal_no_guard_witness :
    (step
        (step (step (mkCallState "me" "room1" ["me", "a"] CallType.voice)
            CallEvent.localInit)
          (CallEvent.signal (SignalEvent.offer
            { from' := "a", to' := "me", chatRoomId := "room1", body := "o1" })))
        (CallEvent.signal (SignalEvent.answer
          { from' := "a", to' := "me", chatRoomId := "room1", body := "x" })) =
      step (step (mkCallState "me" "room1" ["me", "a"] CallType.voice)
          CallEvent.localInit)
        (CallEvent.signal (SignalEvent.offer
          { from' := "a", to' := "me", chatRoomId := "room1", body := "o1" }))) ∧
    (∃ pc', findPC
        (step
          (step (step (mkCallState "me" "room1" ["me", "a"] CallType.voice)
              CallEvent.localInit)
            (CallEvent.signal (SignalEvent.offer
              { from' := "a", to' := "me", chatRoomId := "room1", body := "o1" })))
          (CallEvent.signal (SignalEvent.offer
            { from' := "a", to' := "me", chatRoomId := "room1", body := "o1" }))).peerConnections
        "a" = some pc' ∧
      pc'.remoteDescriptions =
        RTCPeerConnection.remoteDescriptions
          { signalingState := SignalingState.stable
            remoteDescriptions := ["o1"]
            localDescriptions := ["answer-to-o1"]
            appliedCandidates := []
            connected := false
            closed := false } ++ ["o1"] ∧
      (step
          (step (step (mkCallState "me" "room1" ["me", "a"] CallType.voice)
              CallEvent.localInit)
            (CallEvent.signal (SignalEvent.offer
              { from' := "a", to' := "me", chatRoomId := "room1", body := "o1" })))
          (CallEvent.signal (SignalEvent.offer
            { from' := "a", to' := "me", chatRoomId := "room1", body := "o1" }))).outbox =
        (step (step (mkCallState "me" "room1" ["me", "a"] CallType.voice)
            CallEvent.localInit)
          (CallEvent.signal (SignalEvent.offer
            { from' := "a", to' := "me", chatRoomId := "room1", body := "o1" }))).outbox ++
          [SignalEvent.answer
            { from' := "me", to' := "a", chatRoomId := "room1",
              body := answerSdpFor "o1" }]) := by
  constructor
  · exact (duplicate_signal_no_guard
      (step (step (mkCallState "me" "room1" ["me", "a"] CallType.voice)
          CallEvent.localInit)
        (CallEvent.signal (SignalEvent.offer
          { from' := "a", to' := "me", chatRoomId := "room1", body := "o1" })))
      { from' := "a", to' := "me", chatRoomId := "room1", body := "x" }).1
      { signalingState := SignalingState.stable
        remoteDescriptions := ["o1"]
        localDescriptions := ["answer-to-o1"]
        appliedCandidates := []
        connected := false
        closed := false }
      (by decide) (by decide)
  · exact (duplicate_signal_no_guard
      (step (step (mkCallState "me" "room1" ["me", "a"] CallType.voice)
          CallEvent.localInit)
        (CallEvent.signal (SignalEvent.offer
          { from' := "a", to' := "me", chatRoomId := "room1", body := "o1" })))
      { from' := "a", to' := "me", chatRoomId := "room1", body := "o1" }).2
      { signalingState := SignalingState.stable
        remoteDescriptions := ["o1"]
        localDescriptions := ["answer-to-o1"]
        appliedCandidates := []
        connected := false
        closed := false }
      (by decide) (by decide) (by decide) (by decide)

/-- C6. A signaling payload whose `to` field names someone other than the
local user is never applied: for `offer`, `answer` and `ice-candidate`
the per-call component state is left exactly as it was, and for an
`incoming-call` invite the hook state is left exactly as it was. -/
theorem addressed_to_other_is_noop (s : CallComponentState) (p : SignalPayload)
    (st : IncomingCallsState) (q : InvitePayload)
    (hp : p.to' ≠ s.userId) (hq : q.to' ≠ st.selfId) :
    step s (CallEvent.signal (SignalEvent.offer p)) = s ∧
    step s (CallEvent.signal (SignalEvent.answer p)) = s ∧
    step s (CallEvent.signal (SignalEvent.iceCandidate p)) = s ∧
    inviteStep st (InviteEvent.incomingCall q) = st := by
  refine ⟨?_, ?_, ?_, ?_⟩ <;> simp [step, inviteStep, hp, hq]

/-- C6 (witness): a concrete payload addressed to `someone-else` changes
neither the call component nor the incoming-calls hook. -/
theorem addressed_to_other_is_noop_witness :
    step (mkCallState "me" "room1" ["me", "a"] CallType.voice)
        (CallEvent.signal (SignalEvent.offer
          { from' := "a", to' := "b", chatRoomId := "room1", body := "o1" })) =
      mkCallState "me" "room1" ["me", "a"] CallType.voice ∧
    inviteStep (mkIncomingCallsState "me")
        (InviteEvent.incomingCall
          { chatRoomId := "room1", callType := CallType.voice, from' := "a",
            to' := "b", participants := ["a", "b"] }) =
      mkIncomingCallsState "me" := by
  have h := addressed_to_other_is_noop
    (mkCallState "me" "room1" ["me", "a"] CallType.voice)
    { from' := "a", to' := "b", chatRoomId := "room1", body := "o1" }
    (mkIncomingCallsState "me")
    { chatRoomId := "room1", callType := CallType.voice, from' := "a",
      to' := "b", participants := ["a", "b"] }
    (by decide) (by decide)
  exact ⟨h.1, h.2.2.2⟩

/-- C7 (counterexample). With roster `["me", "a"]` and an empty connection
map (initialization has not yet created connections), an offer from the
roster member `a` addressed to the local user creates nothing: the map
stays empty and the state is unchanged — refuting the claim that a
`PeerConnection` is created on demand when a message arrives from an
unseen sender who is in the roster. -/
theorem message_no_pc_creation_counterexample :
    "a" ∈ (mkCallState "me" "room1" ["me", "a"] CallType.voice).participants ∧
    step (mkCallState "me" "room1" ["me", "a"] CallType.voice)
        (CallEvent.signal (SignalEvent.offer
          { from' := "a", to' := "me", chatRoomId := "room1", body := "o1" })) =
      mkCallState "me" "room1" ["me", "a"] CallType.voice ∧
    (step (mkCallState "me" "room1" ["me", "a"] CallType.voice)
        (CallEvent.signal (SignalEvent.offer
          { from' := "a", to' := "me", chatRoomId := "room1", body := "o1" }))).peerConnections =
      [] := by
  decide

/-- C7 (amended). Peer connections are created only by `initializeCall`:
starting from an empty map it creates exactly one fresh connection per
roster member other than the local user; no broadcast ever inserts a new
key into the map — a message from a sender with no existing connection
(whether in the roster or not) is ignored and creates nothing. -/
theorem pc_creation_only_at_init (s : CallComponentState) :
    (s.peerConnections = [] → ∀ u,
      findPC (step s CallEvent.localInit).peerConnections u =
        if u ≠ s.userId ∧ u ∈ s.participants then some freshPC else none) ∧
    (∀ se u, findPC (step s (CallEvent.signal se)).peerConnections u ≠ none →
      findPC s.peerConnections u ≠ none) := by
  constructor
  · intro hempty u
    have he : (step s CallEvent.localInit).peerConnections =
        initPCs s.userId s.participants s.peerConnections := rfl
    rw [he, findPC_initPCs, hempty]
    rfl
  · intro se u
    exact step_signal_no_new_pc s se u

/-- C7 (witness for the amended theorem): initialization creates the
connection for the roster peer and none for the local user; an offer only
finds keys that already existed. -/
theorem pc_creation_only_at_init_witness :
    findPC (step (mkCallState "me" "room1" ["me", "a"] CallType.voice)
        CallEvent.localInit).peerConnections "a" = some freshPC ∧
    findPC (step (mkCallState "me" "room1" ["me", "a"] CallType.voice)
        CallEvent.localInit).peerConnections "me" = none ∧
    findPC (step (mkCallState "me" "room1" ["me", "a"] CallType.voice)
        CallEvent.localInit).peerConnections "a" ≠ none := by
  refine ⟨?_, ?_, ?_⟩
  · have h := (pc_creation_only_at_init
      (mkCallState "me" "room1" ["me", "a"] CallType.voice)).1 rfl "a"
    rw [h]
    decide
  · have h := (pc_creation_only_at_init
      (mkCallState "me" "room1" ["me", "a"] CallType.voice)).1 rfl "me"
    rw [h]
    decide
  · exact (pc_creation_only_at_init
      (step (mkCallState "me" "room1" ["me", "a"] CallType.voice)
        CallEvent.localInit)).2
      (SignalEvent.offer
        { from' := "a", to' := "me", chatRoomId := "room1", body := "o1" })
      "a" (by decide)

/-- C2 (counterexample). In a call with one local track and one peer
connection, `endCall`'s side effects are, in order: notify, stop the
track, close the connection, unsubscribe.  The claimed order (close every
`PeerConnection` before stopping the local tracks) requires that no
`closePeer` step follow a `stopTrack` step; the actual trace violates
that. -/
theorem endCall_order_counterexample :
    endCallTrace (step (mkCallState "me" "room1" ["me", "a"] CallType.voice)
        CallEvent.localInit) =
      [TeardownStep.notify, TeardownStep.stopTrack 0,
        TeardownStep.closePeer "a", TeardownStep.unsubscribeChannel] ∧
    noCloseAfterStop (endCallTrace
        (step (mkCallState "me" "room1" ["me", "a"] CallType.voice)
          CallEvent.localInit)) = false := by
  decide

/-- C2 (amended). Every invocation of `endCall` performs the teardown in
program order: the `call-ended` notification first, then every local track
is stopped, then every peer connection is closed, then the per-call
channel is unsubscribed (stop-tracks precedes close-connections — the
reverse of the claimed order of those two steps).  All the steps execute
whether or not the notification is delivered: the broadcast is
fire-and-forget, so its failure cannot interrupt the teardown, and the
released state (empty connection map, dropped stream, unsubscribed
channel, closed connections appended to the graveyard) is reached
unconditionally. -/
theorem endCall_teardown_order (s : CallComponentState) (sendOk : Bool) :
    (endCallTrace s).head? = some TeardownStep.notify ∧
    (∀ kv ∈ s.peerConnections, TeardownStep.closePeer kv.1 ∈ endCallTrace s) ∧
    (∀ tr, s.localStream = some tr → ∀ i, i < tr.length →
      TeardownStep.stopTrack i ∈ endCallTrace s) ∧
    (∃ pre, endCallTrace s = pre ++ [TeardownStep.unsubscribeChannel]) ∧
    noStopAfterClose (endCallTrace s) = true ∧
    (endCallWith s sendOk).peerConnections = [] ∧
    (endCallWith s sendOk).localStream = none ∧
    (endCallWith s sendOk).channelSubscribed = false ∧
    (endCallWith s sendOk).destroyed =
      s.destroyed ++ s.peerConnections.map (fun kv => closePC kv.2) := by
  refine ⟨rfl, ?_, ?_, ?_, ?_, rfl, rfl, rfl, rfl⟩
  · intro kv hkv
    simp only [endCallTrace, List.mem_cons, List.mem_append, List.mem_map]
    exact Or.inr (Or.inl (Or.inr ⟨kv, hkv, rfl⟩))
  · intro tr htr i hi
    simp only [endCallTrace, htr, List.mem_cons, List.mem_append, List.mem_map]
    exact Or.inr (Or.inl (Or.inl ⟨i, List.mem_range.mpr hi, rfl⟩))
  · refine ⟨TeardownStep.notify ::
      ((List.range (match s.localStream with | none => 0 | some tr => tr.length)).map
          TeardownStep.stopTrack ++
        s.peerConnections.map (fun kv => TeardownStep.closePeer kv.1)), ?_⟩
    simp [endCallTrace]
  · have he : endCallTrace s =
        (TeardownStep.notify ::
          (List.range (match s.localStream with | none => 0 | some tr => tr.length)).map
            TeardownStep.stopTrack) ++
          (s.peerConnections.map (fun kv => TeardownStep.closePeer kv.1) ++
            [TeardownStep.unsubscribeChannel]) := by
      simp [endCallTrace]
    rw [he]
    rw [noStopAfterClose_append_nonclose]
    · apply noStopAfterClose_of_no_stop
      rw [List.any_append]
      have hcl : (s.peerConnections.map
          (fun kv => TeardownStep.closePeer kv.1)).any isStopStep = false := by
        induction s.peerConnections with
        | nil => rfl
        | cons kv rest ih =>
            rw [List.map_cons, List.any_cons, ih]
            rfl
      rw [hcl]
      rfl
    · intro t ht
      rw [List.mem_cons] at ht
      cases ht with
      | inl h => subst h; rfl
      | inr h =>
          rw [List.mem_map] at h
          obtain ⟨i, _, hi⟩ := h
          rw [← hi]
          rfl

/-- C2 (witness for the amended theorem): the teardown facts at a concrete
one-track, one-peer call state, for both notification outcomes. -/
theorem endCall_teardown_order_witness :
    TeardownStep.closePeer "a" ∈
      endCallTrace (step (mkCallState "me" "room1" ["me", "a"] CallType.voice)
        CallEvent.localInit) ∧
    TeardownStep.stopTrack 0 ∈
      endCallTrace (step (mkCallState "me" "room1" ["me", "a"] CallType.voice)
        CallEvent.localInit) ∧
    (endCallWith (step (mkCallState "me" "room1" ["me", "a"] CallType.voice)
        CallEvent.localInit) false).peerConnections = [] := by
  refine ⟨?_, ?_, ?_⟩
  · exact (endCall_teardown_order
      (step (mkCallState "me" "room1" ["me", "a"] CallType.voice)
        CallEvent.localInit) true).2.1 ("a", freshPC) (by decide)
  · exact (endCall_teardown_order
      (step (mkCallState "me" "room1" ["me", "a"] CallType.voice)
        CallEvent.localInit) true).2.2.1 (mkTracks CallType.voice) rfl 0
      (by decide)
  · exact (endCall_teardown_order
      (step (mkCallState "me" "room1" ["me", "a"] CallType.voice)
        CallEvent.localInit) false).2.2.2.2.2.1

/-- C8. Per processed event: (1) no live connection's state regresses in
the machine `New → LocalOfferSent | RemoteOfferReceived → Negotiating →
Connected → Closed` (its `level` never decreases); (2) connections leave
the live map only by being closed into the append-only `destroyed`
graveyard, whose members are closed and never touched again; (3) a closed
connection never (re-)enters the live map, so no later message is ever
processed for it.  The hypothesis reflects that React runs the mount
effect (`initializeCall`) only on a freshly mounted component, whose map
is empty. -/
theorem pc_no_backward_transition (s : CallComponentState) (e : CallEvent)
    (hinit : e = CallEvent.localInit → s.peerConnections = []) :
    (∀ u pcA pcA', findPC s.peerConnections u = some pcA →
      findPC (step s e).peerConnections u = some pcA' →
      level pcA ≤ level pcA') ∧
    (∃ t, (step s e).destroyed = s.destroyed ++ t ∧
      ∀ pc ∈ t, pc.closed = true) ∧
    (mapUnclosed s.peerConnections → mapUnclosed (step s e).peerConnections) :=
  ⟨step_level_mono s e hinit, step_destroyed_append s e, step_mapUnclosed s e⟩

/-- C8 (witness): at an initialized call, a delivered offer only moves the
peer's connection up the machine (`level` of the fresh connection is below
the level after negotiation), and ending the call appends only closed
connections to the graveyard. -/
theorem pc_no_backward_transition_witness :
    level freshPC ≤ level
      { signalingState := SignalingState.stable
        remoteDescriptions := ["o1"]
        localDescriptions := ["answer-to-o1"]
        appliedCandidates := []
        connected := false
        closed := false } ∧
    (∃ t, (step (step (mkCallState "me" "room1" ["me", "a"] CallType.voice)
          CallEvent.localInit) CallEvent.endCallClick).destroyed =
        (step (mkCallState "me" "room1" ["me", "a"] CallType.voice)
          CallEvent.localInit).destroyed ++ t ∧
      ∀ pc ∈ t, pc.closed = true) := by
  constructor
  · exact (pc_no_backward_transition
      (step (mkCallState "me" "room1" ["me", "a"] CallType.voice)
        CallEvent.localInit)
      (CallEvent.signal (SignalEvent.offer
        { from' := "a", to' := "me", chatRoomId := "room1", body := "o1" }))
      (by intro h; exact absurd h (by decide))).1 "a" freshPC
      { signalingState := SignalingState.stable
        remoteDescriptions := ["o1"]
        localDescriptions := ["answer-to-o1"]
        appliedCandidates := []
        connected := false
        closed := false }
      (by decide) (by decide)
  · exact (pc_no_backward_transition
      (step (mkCallState "me" "room1" ["me", "a"] CallType.voice)
        CallEvent.localInit)
      CallEvent.endCallClick
      (by intro h; exact absurd h (by decide))).2.1

/-- C9. Over any sequence of `sendCallInvite` / `sendCallCancelled` calls
from process start, the "call-invites" channel is created at most once and
subscribed at most once, and every call is handed the same single channel
handle. -/
theorem invites_channel_at_most_once (calls : List InviteApiCall) :
    (runInviteApi initialInvitesState calls).createCount ≤ 1 ∧
    (runInviteApi initialInvitesState calls).subscribeCount ≤ 1 ∧
    ∀ c ∈ (runInviteApi initialInvitesState calls).handlesReturned, c = 0 := by
  have h := invitesInv_runInviteApi calls initialInvitesState
    ⟨Or.inl ⟨rfl, rfl⟩, Or.inl ⟨rfl, rfl⟩, by intro c hc; simp [initialInvitesState] at hc⟩
  obtain ⟨hch, hsub, hhandles⟩ := h
  refine ⟨?_, ?_, hhandles⟩
  · cases hch with
    | inl h => rw [h.2]; omega
    | inr h => rw [h.2]
  · cases hsub with
    | inl h => rw [h.2]; omega
    | inr h => rw [h.2]

/-- C9 (witness): after two concrete calls the counters are at most one
and the handle handed out both times is the single channel. -/
theorem invites_channel_at_most_once_witness :
    (runInviteApi initialInvitesState
      [InviteApiCall.invite ["r1"], InviteApiCall.cancel ["r1"]]).createCount ≤ 1 ∧
    (0 ∈ (runInviteApi initialInvitesState
        [InviteApiCall.invite ["r1"], InviteApiCall.cancel ["r1"]]).handlesReturned →
      (0 : Nat) = 0) := by
  constructor
  · exact (invites_channel_at_most_once
      [InviteApiCall.invite ["r1"], InviteApiCall.cancel ["r1"]]).1
  · exact fun hmem => (invites_channel_at_most_once
      [InviteApiCall.invite ["r1"], InviteApiCall.cancel ["r1"]]).2.2 0 hmem

/-- C10. `toggleMute` is an involution on the mute state: with no local
stream, or with no audio track, it is a no-op; with an audio track it
flips the track's `enabled` flag and sets `isMuted` to the negation of the
new value; and — whenever `isMuted` agrees with the track (as it does in
every reachable state, both starting `false`/`true` respectively) — a
second call restores the component state exactly. -/
theorem toggleMute_involution (s : CallComponentState) :
    (s.localStream = none → toggleMute s = s) ∧
    (∀ tr, s.localStream = some tr → firstAudioTrack tr = none →
      toggleMute s = s) ∧
    (∀ tr t, s.localStream = some tr → firstAudioTrack tr = some t →
      (toggleMute s).isMuted = t.enabled ∧
      (toggleMute s).localStream = some (toggleFirstAudio tr) ∧
      firstAudioTrack (toggleFirstAudio tr) =
        some { t with enabled := !t.enabled }) ∧
    (∀ tr t, s.localStream = some tr → firstAudioTrack tr = some t →
      s.isMuted = !t.enabled → toggleMute (toggleMute s) = s) := by
  refine ⟨?_, ?_, ?_, ?_⟩
  · intro hls
    simp [toggleMute, hls]
  · intro tr hls hfa
    simp [toggleMute, hls, hfa]
  · intro tr t hls hfa
    refine ⟨?_, ?_, ?_⟩
    · simp [toggleMute, hls, hfa]
    · simp [toggleMute, hls, hfa]
    · rw [firstAudioTrack_toggleFirstAudio, hfa]
      rfl
  · intro tr t hls hfa hmute
    have hfa2 : firstAudioTrack (toggleFirstAudio tr) =
        some { t with enabled := !t.enabled } := by
      rw [firstAudioTrack_toggleFirstAudio, hfa]
      rfl
    have h1 : toggleMute s =
        { s with localStream := some (toggleFirstAudio tr), isMuted := t.enabled } := by
      simp [toggleMute, hls, hfa]
    have h2 : toggleMute (toggleMute s) =
        { s with localStream := some (toggleFirstAudio (toggleFirstAudio tr)),
                 isMuted := !t.enabled } := by
      rw [h1]
      simp [toggleMute, hfa2]
    rw [h2, toggleFirstAudio_involutive, ← hls, ← hmute]

/-- C10 (witness): on a fresh voice call (one enabled audio track,
`isMuted := false`), one toggle mutes, a second toggle restores the exact
state; on a not-yet-initialized component it is a no-op. -/
theorem toggleMute_involution_witness :
    toggleMute (mkCallState "me" "room1" ["me", "a"] CallType.voice) =
      mkCallState "me" "room1" ["me", "a"] CallType.voice ∧
    (toggleMute (step (mkCallState "me" "room1" ["me", "a"] CallType.voice)
        CallEvent.localInit)).isMuted = true ∧
    toggleMute (toggleMute (step (mkCallState "me" "room1" ["me", "a"] CallType.voice)
        CallEvent.localInit)) =
      step (mkCallState "me" "room1" ["me", "a"] CallType.voice)
        CallEvent.localInit := by
  refine ⟨?_, ?_, ?_⟩
  · exact (toggleMute_involution
      (mkCallState "me" "room1" ["me", "a"] CallType.voice)).1 rfl
  · have h := (toggleMute_involution
      (step (mkCallState "me" "room1" ["me", "a"] CallType.voice)
        CallEvent.localInit)).2.2.1 (mkTracks CallType.voice)
      { kind := TrackKind.audio, enabled := true, stopped := false }
      rfl (by decide)
    rw [h.1]
  · exact (toggleMute_involution
      (step (mkCallState "me" "room1" ["me", "a"] CallType.voice)
        CallEvent.localInit)).2.2.2 (mkTracks CallType.voice)
      { kind := TrackKind.audio, enabled := true, stopped := false }
      rfl (by decide) (by decide)

end VoiceLink
